import Mathlib

/-!
The SpiceDB authorization client (`coderd/database/spice`)

A shallow embedding of `spicedb.go` and `roles.go`.

* Go errors are values of `GoError`; `xerrors.Errorf("msg: %w", e)` is `GoError.wrapf`, and
  the package variables `io.EOF` and `sql.ErrNoRows` are values of their own, equal to no error
  made elsewhere.
* A `context.Context` is the chain of its `WithValue` bindings together with the outgoing
  request headers it carries.
* The gRPC client `permCli` is a record of handlers over an arbitrary remote state `σ`; every
  handler receives the call context, the request and the call options, and answers with the
  next remote state and either a response or an error.
* The client `SpiceDB σ` carries the remote state, the consistency tracker `zedToken`, the
  transaction scope `reverts`, and a ghost trace `calls` of the RPCs issued so far.
* A Go closure `func()` returned as `revert` is the data it captures (`Revert`); running it is
  `Revert.run`.
-/

set_option autoImplicit false

namespace Spice

/-! ## Errors -/

/-- Go error values. `errors.Is` compares error values by identity, not by text, so the
package-level error variables that the code compares against are values of their own:
`sentinel pkgVar msg` is the error held by the package variable `pkgVar` (for instance `io.EOF`),
with text `msg`. `leaf msg` is an error value made elsewhere with text `msg` and wrapping
nothing (`errors.New(msg)`, `xerrors.Errorf(msg)`, a gRPC status error); it is never a package
variable, whatever its text. `wrapf msg cause` is
`xerrors.Errorf("<msg>: %w", cause)` / `fmt.Errorf("<msg>: %w", cause)`. -/
inductive GoError where
  | leaf (msg : String)
  | wrapf (msg : String) (cause : GoError)
  | sentinel (pkgVar : String) (msg : String)
  deriving DecidableEq, Repr

namespace GoError

/-- The text of `err.Error()`. -/
def message : GoError → String
  | leaf m => m
  | wrapf m c => m ++ ": " ++ c.message
  | sentinel _ m => m

/-- The chain walked by `errors.Is`: the error itself followed by what it wraps. -/
def chain : GoError → List GoError
  | leaf m => [leaf m]
  | wrapf m c => wrapf m c :: c.chain
  | sentinel v m => [sentinel v m]

/-- Go `errors.Is(err, target)`: whether `target` is one of the values of the chain of `err`.
For a package variable as `target` this holds exactly when that variable is in the chain. -/
def is (err target : GoError) : Bool := decide (target ∈ err.chain)

end GoError

/-- Go `sql.ErrNoRows`. -/
def sqlErrNoRows : GoError := .sentinel "sql.ErrNoRows" "sql: no rows in result set"

/-- Go `io.EOF`. -/
def ioEOF : GoError := .sentinel "io.EOF" "EOF"

/-- The package variable `NoActorError`. -/
def NoActorError : GoError := .wrapf "no authorization actor in context" sqlErrNoRows

/-! ## Wire types (`authzed.api.v1`) -/

structure ObjectReference where
  objectType : String
  objectId : String
  deriving DecidableEq, Repr

structure SubjectReference where
  object : ObjectReference
  optionalRelation : String
  deriving DecidableEq, Repr

/-- A relationship tuple `resource#relation@subject`. The caveat field of the wire type is never
set or read by the client and is left out. -/
structure Relationship where
  resource : ObjectReference
  relation : String
  subject : SubjectReference
  deriving DecidableEq, Repr

/-- The pointer type `*v1.ZedToken` is `Option ZedToken`. -/
structure ZedToken where
  token : String
  deriving DecidableEq, Repr

inductive Consistency where
  | minimizeLatency
  | atLeastAsFresh (token : Option ZedToken)
  | atExactSnapshot (token : Option ZedToken)
  | fullyConsistent
  deriving DecidableEq, Repr

inductive Permissionship where
  | unspecified
  | noPermission
  | hasPermission
  | conditionalPermission
  deriving DecidableEq, Repr

inductive Operation where
  | unspecified
  | create
  | touch
  | delete
  deriving DecidableEq, Repr

structure RelationshipUpdate where
  operation : Operation
  relationship : Relationship
  deriving DecidableEq, Repr

/-- The message `SubjectFilter`; `optionalRelation = none` is a nil `RelationFilter`. -/
structure SubjectFilter where
  subjectType : String
  optionalSubjectId : String
  optionalRelation : Option String
  deriving DecidableEq, Repr

structure RelationshipFilter where
  resourceType : String
  optionalResourceId : String
  optionalResourceIdPrefix : String
  optionalRelation : String
  optionalSubjectFilter : Option SubjectFilter
  deriving DecidableEq, Repr

structure Precondition where
  mustMatch : Bool
  filter : RelationshipFilter
  deriving DecidableEq, Repr

structure CheckPermissionRequest where
  consistency : Consistency
  resource : ObjectReference
  permission : String
  subject : SubjectReference
  /-- The caveat context; the client always sends nil. -/
  context : Option (List (String × String))
  deriving DecidableEq, Repr

structure CheckPermissionResponse where
  permissionship : Permissionship
  deriving DecidableEq, Repr

structure WriteRelationshipsRequest where
  updates : List RelationshipUpdate
  optionalPreconditions : List Precondition
  deriving DecidableEq, Repr

structure WriteRelationshipsResponse where
  writtenAt : Option ZedToken
  deriving DecidableEq, Repr

structure DeleteRelationshipsRequest where
  relationshipFilter : RelationshipFilter
  optionalPreconditions : List Precondition
  optionalLimit : Nat
  optionalAllowPartialDeletions : Bool
  deriving DecidableEq, Repr

structure DeleteRelationshipsResponse where
  deletedAt : Option ZedToken
  deriving DecidableEq, Repr

structure ReadRelationshipsRequest where
  consistency : Consistency
  relationshipFilter : RelationshipFilter
  optionalLimit : Nat
  optionalCursor : Option String
  deriving DecidableEq, Repr

/-- A server stream: the successive results of `Recv()`. Once the list is exhausted `Recv`
answers `io.EOF`. -/
abbrev RelationshipStream := List (Except GoError Relationship)

/-! ## Contexts and actors -/

inductive CtxKey where
  | spiceActorKey
  | other (name : String)
  deriving DecidableEq, Repr

inductive CtxValue where
  | subject (ref : SubjectReference)
  | other (tag : String)
  deriving DecidableEq, Repr

/-- A `context.Context`: its `WithValue` bindings, most recent first, the outgoing request
headers, and whether debug mode was requested for it. -/
structure Context where
  values : List (CtxKey × CtxValue)
  requestHeaders : List String
  debugRequested : Bool
  deriving DecidableEq, Repr

namespace Context

/-- Go `context.Background()`. -/
def background : Context := ⟨[], [], false⟩

/-- Go `context.WithValue(ctx, k, v)`. -/
def withValue (ctx : Context) (k : CtxKey) (v : CtxValue) : Context :=
  { ctx with values := (k, v) :: ctx.values }

/-- Go `ctx.Value(k)`: the most recent binding of `k`. -/
def value (ctx : Context) (k : CtxKey) : Option CtxValue :=
  (ctx.values.find? (fun kv => decide (kv.1 = k))).map Prod.snd

end Context

def god : String := "god"

/-- The subject bound by `AsGod`. -/
def godActor : SubjectReference := ⟨⟨god, god⟩, ""⟩

/-- `ActorFromContext`: the value under `spiceActorKey{}` asserted to `*v1.SubjectReference`.
The Go result `(a, ok)` is `some a` when `ok` is true and `none` when `ok` is false. -/
def ActorFromContext (ctx : Context) : Option SubjectReference :=
  match ctx.value .spiceActorKey with
  | some (.subject a) => some a
  | _ => none

def AsGod (ctx : Context) : Context :=
  ctx.withValue .spiceActorKey (.subject godActor)

/-- `AsUser`. The object `policy.New().User(userID).Object()` is built by the policy package;
its object type is the parameter `userType`, its id the textual form of the UUID. -/
def AsUser (userType : String) (ctx : Context) (userID : String) : Context :=
  ctx.withValue .spiceActorKey (.subject ⟨⟨userType, userID⟩, ""⟩)

/-! ## The remote service and the client state -/

inductive CallOption where
  | trailer
  deriving DecidableEq, Repr

/-- The header key `requestmeta.RequestDebugInformation`. -/
def requestDebugInformation : String := "io.spicedb.requestdebuginfo"

/-- `requestmeta.AddRequestHeaders(ctx, keys...)`. -/
def addRequestHeaders (ctx : Context) (keys : List String) : Context :=
  { ctx with requestHeaders := ctx.requestHeaders ++ keys }

/-- The interface `v1.PermissionsServiceClient` over a remote state `σ`. -/
structure PermissionsServiceClient (σ : Type) where
  checkPermission : σ → Context → CheckPermissionRequest → List CallOption →
    σ × Except GoError CheckPermissionResponse
  writeRelationships : σ → Context → WriteRelationshipsRequest → List CallOption →
    σ × Except GoError WriteRelationshipsResponse
  deleteRelationships : σ → Context → DeleteRelationshipsRequest → List CallOption →
    σ × Except GoError DeleteRelationshipsResponse
  readRelationships : σ → Context → ReadRelationshipsRequest → List CallOption →
    σ × Except GoError RelationshipStream

/-- One outbound RPC, as recorded in the ghost trace. -/
inductive Call where
  | checkPermission (ctx : Context) (req : CheckPermissionRequest) (opts : List CallOption)
  | writeRelationships (ctx : Context) (req : WriteRelationshipsRequest) (opts : List CallOption)
  | deleteRelationships (ctx : Context) (req : DeleteRelationshipsRequest) (opts : List CallOption)
  | readRelationships (ctx : Context) (req : ReadRelationshipsRequest) (opts : List CallOption)
  deriving DecidableEq, Repr

/-- The consistency requirement a call carries, for the calls that have one. -/
def Call.consistency : Call → Option Consistency
  | .checkPermission _ req _ => some req.consistency
  | .readRelationships _ req _ => some req.consistency
  | _ => none

/-- The closure returned by `WriteRelationships`: either the package function `noop`, or the
closure over the call context, the call options and the updates that were written. The function
`noop` is declared outside the files at hand; following the spec ("the returned closure is a
no-op") its invocation does nothing. -/
inductive Revert where
  | noop
  | deleteWritten (ctx : Context) (opts : List CallOption) (updates : List RelationshipUpdate)
  deriving DecidableEq, Repr

/-- What `logger.Error(ctx, "revert relationships", ...)` records. -/
structure LogEntry where
  msg : String
  err : GoError
  quantity : Nat
  relationships : List Relationship
  deriving DecidableEq, Repr

/-- The struct `SpiceDB`, with the remote state it talks to and the trace of calls issued. -/
structure SpiceDB (σ : Type) where
  remote : σ
  zedToken : Option ZedToken
  reverts : Option (List Revert)
  debug : Bool
  calls : List Call
  logs : List LogEntry

/-! ## `spicedb.go` -/

section Client

variable {σ : Type}

/-- Modelled from the spec: the method `debugging` is declared outside the files at hand. Debug
mode is active for a context when the client's `debug` field is set ("print extra debug
information on all checks") or the context carries the debug-enabled flag. -/
def SpiceDB.debugging (s : SpiceDB σ) (ctx : Context) : Bool :=
  s.debug || ctx.debugRequested

/-- `debugSpiceDBRPC`: the context with the debug-information request header and the
trailer-capture call option. The third result, the callback that renders the captured trailer to
the debug log, has no effect on the client state or on any result and is not represented. -/
def debugSpiceDBRPC (ctx : Context) : Context × CallOption :=
  (addRequestHeaders ctx [requestDebugInformation], .trailer)

/-- The opening block shared by the operations: `opts := []grpc.CallOption{}` and, when
debugging, `opts = append(opts, opt); ctx = debugCtx`. Returns the resulting `(ctx, opts)`. -/
def debugSetup (s : SpiceDB σ) (ctx : Context) : Context × List CallOption :=
  if s.debugging ctx then
    ((debugSpiceDBRPC ctx).1, [] ++ [(debugSpiceDBRPC ctx).2])
  else
    (ctx, [])

/-- The loop of `WriteRelationships` that builds `updates`: one TOUCH per relationship. -/
def touchUpdates (relationships : List Relationship) : List RelationshipUpdate :=
  relationships.map (fun r => { operation := .touch, relationship := r })

/-- The loop of the revert closure: `updates[i].Operation = OPERATION_DELETE`. -/
def markDelete (updates : List RelationshipUpdate) : List RelationshipUpdate :=
  updates.map (fun u => { u with operation := .delete })

/-- The request `WriteRelationships` sends. -/
def writeRequest (relationships : List Relationship) : WriteRelationshipsRequest :=
  { updates := touchUpdates relationships, optionalPreconditions := [] }

/-- The request the revert closure sends. -/
def revertRequest (updates : List RelationshipUpdate) : WriteRelationshipsRequest :=
  { updates := markDelete updates, optionalPreconditions := [] }

/-- Invoking a revert closure. A gRPC call answers either a response or an error, so of the two
independent tests of the closure (`resp != nil && resp.WrittenAt != nil`, `err != nil`) exactly
the first can hold on a response and exactly the second on an error. -/
def Revert.run (cli : PermissionsServiceClient σ) (s : SpiceDB σ) : Revert → SpiceDB σ
  | .noop => s
  | .deleteWritten ctx opts updates =>
    let req := revertRequest updates
    match cli.writeRelationships s.remote ctx req opts with
    | (remote, .ok resp) =>
      let s1 : SpiceDB σ := { s with remote := remote, calls := s.calls ++ [Call.writeRelationships ctx req opts] }
      match resp.writtenAt with
      | some t => { s1 with zedToken := some t }
      | none => s1
    | (remote, .error err) =>
      { s with
        remote := remote
        calls := s.calls ++ [Call.writeRelationships ctx req opts]
        logs := s.logs ++ [{ msg := "revert relationships", err := err,
                             quantity := (markDelete updates).length,
                             relationships := (markDelete updates).map (·.relationship) }] }

/-- `(*SpiceDB).WriteRelationships`. The result is the Go pair `(revert, error)`; a nil closure
and a nil error are `none`. The field `reverts` is the transaction scope: `some rs` holds the
reverts registered so far and `AddRevert` appends to them. -/
def WriteRelationships (cli : PermissionsServiceClient σ) (s : SpiceDB σ) (ctx : Context)
    (relationships : List Relationship) : SpiceDB σ × Option Revert × Option GoError :=
  let ctx1 := (debugSetup s ctx).1
  let opts := (debugSetup s ctx).2
  let req := writeRequest relationships
  match cli.writeRelationships s.remote ctx1 req opts with
  | (remote, .error err) =>
    ({ s with remote := remote, calls := s.calls ++ [Call.writeRelationships ctx1 req opts] },
      none, some (GoError.wrapf "write relationship" err))
  | (remote, .ok resp) =>
    let s1 : SpiceDB σ := { s with
      remote := remote
      calls := s.calls ++ [Call.writeRelationships ctx1 req opts]
      zedToken := resp.writtenAt }
    let revert := Revert.deleteWritten ctx1 opts req.updates
    match s1.reverts with
    | some rs => ({ s1 with reverts := some (rs ++ [revert]) }, some Revert.noop, none)
    | none => (s1, some revert, none)

/-- The test `actor.Object.ObjectType == god && actor.Object.ObjectId == "god"`. -/
def isGod (actor : SubjectReference) : Bool :=
  decide (actor.object.objectType = god) && decide (actor.object.objectId = "god")

/-- The request `Check` sends for a non-bootstrap actor. -/
def checkRequest (s : SpiceDB σ) (permission : String) (resource : ObjectReference)
    (actor : SubjectReference) : CheckPermissionRequest :=
  { consistency := .atLeastAsFresh s.zedToken
    resource := resource
    permission := permission
    subject := actor
    context := none }

/-- `(*SpiceDB).Check`; a nil error is `none`. -/
def Check (cli : PermissionsServiceClient σ) (s : SpiceDB σ) (ctx : Context)
    (permission : String) (resource : ObjectReference) : SpiceDB σ × Option GoError :=
  match ActorFromContext ctx with
  | none => (s, some NoActorError)
  | some actor =>
    if isGod actor then
      (s, none)
    else
      let ctx1 := (debugSetup s ctx).1
      let opts := (debugSetup s ctx).2
      let req := checkRequest s permission resource actor
      match cli.checkPermission s.remote ctx1 req opts with
      | (remote, .error err) =>
        ({ s with remote := remote, calls := s.calls ++ [Call.checkPermission ctx1 req opts] },
          some (GoError.wrapf "check permission" err))
      | (remote, .ok resp) =>
        let s1 : SpiceDB σ := { s with remote := remote, calls := s.calls ++ [Call.checkPermission ctx1 req opts] }
        if resp.permissionship = .hasPermission then
          (s1, none)
        else if resp.permissionship = .conditionalPermission then
          (s1, some (GoError.leaf "not authorized: conditional permission"))
        else
          (s1, some (GoError.leaf "not authorized"))

/-! ## The policy builder -/

/-- Modelled from the spec: the package `policy` (the tuple-construction facility) is declared
outside the files at hand. These are the names its generated constructors use: the object types
of roles and organizations, the relation binding an actor to a role, the subject relation under
which a role is granted a permission, and the relation binding a role to its organization. -/
structure PolicyNames where
  orgRoleType : String
  organizationType : String
  relationMember : String
  relationHasRole : String
  relationOrganization : String
  deriving DecidableEq, Repr

/-- Modelled from the spec: `builder.Org_role(policy.String(roleName)).Object()`, the object of
the role named `roleName`. -/
def PolicyNames.orgRole (names : PolicyNames) (roleName : String) : ObjectReference :=
  { objectType := names.orgRoleType, objectId := roleName }

/-- Modelled from the spec: `builder.Organization(orgID).Object()`, the object of the
organization `orgID` (a UUID in its textual form). -/
def PolicyNames.organization (names : PolicyNames) (orgID : String) : ObjectReference :=
  { objectType := names.organizationType, objectId := orgID }

/-- Modelled from the spec: `role.AsAnyHas_role().AsSubject()`, the role as the subject of a
permission relation. -/
def PolicyNames.roleSubject (names : PolicyNames) (roleName : String) : SubjectReference :=
  { object := names.orgRole roleName, optionalRelation := names.relationHasRole }

/-- Modelled from the spec: the relationship `newRole.Organization(org)` adds to the builder,
the organization-membership tuple of the role. -/
def PolicyNames.roleOrganization (names : PolicyNames) (roleName orgID : String) :
    Relationship :=
  { resource := names.orgRole roleName
    relation := names.relationOrganization
    subject := { object := names.organization orgID, optionalRelation := "" } }

/-- Modelled from the spec: a permission tuple granting relation `relation` from the role to the
organization, as the assign step declares it. -/
def PolicyNames.permission (names : PolicyNames) (roleName orgID relation : String) :
    Relationship :=
  { resource := names.organization orgID
    relation := relation
    subject := names.roleSubject roleName }

/-! ## `roles.go` -/

/-- The filter of `OrganizationRoleAssignedActors`. -/
def assignedActorsFilter (names : PolicyNames) (roleName : String) : RelationshipFilter :=
  { resourceType := (names.orgRole roleName).objectType
    optionalResourceId := (names.orgRole roleName).objectId
    optionalResourceIdPrefix := ""
    optionalRelation := names.relationMember
    optionalSubjectFilter := none }

def orgRolePermissionsFilter (names : PolicyNames) (roleName orgID : String) :
    RelationshipFilter :=
  { resourceType := (names.organization orgID).objectType
    optionalResourceId := (names.organization orgID).objectId
    optionalResourceIdPrefix := ""
    optionalRelation := ""
    optionalSubjectFilter := some
      { subjectType := (names.roleSubject roleName).object.objectType
        optionalSubjectId := (names.roleSubject roleName).object.objectId
        optionalRelation := some (names.roleSubject roleName).optionalRelation } }

/-- The receive loop of `OrganizationRoleAssignedActors`, started with `assigned`. The Go result
`([]string, error)` is a pair of options; a nil slice and a nil error are `none`. -/
def recvAssigned : RelationshipStream → List String → Option (List String) × Option GoError
  | [], assigned => (some assigned, none)
  | .error err :: _, assigned =>
    if err.is ioEOF then (some assigned, none)
    else (none, some (GoError.wrapf "failed to find assigned" err))
  | .ok rel :: rest, assigned => recvAssigned rest (assigned ++ [rel.subject.object.objectId])

/-- The receive loop of `OrganizationRolePermissions`, started with `perms`. -/
def recvPerms : RelationshipStream → List String → Option (List String) × Option GoError
  | [], perms => (some perms, none)
  | .error err :: _, perms =>
    if err.is ioEOF then (some perms, none)
    else (none, some (GoError.wrapf "failed to read relationship" err))
  | .ok rel :: rest, perms => recvPerms rest (perms ++ [rel.relation])

/-- The request `OrganizationRoleAssignedActors` sends. -/
def assignedActorsRequest (names : PolicyNames) (s : SpiceDB σ) (roleName : String) :
    ReadRelationshipsRequest :=
  { consistency := .atLeastAsFresh s.zedToken
    relationshipFilter := assignedActorsFilter names roleName
    optionalLimit := 0
    optionalCursor := none }

/-- `(*SpiceDB).OrganizationRoleAssignedActors`. The read is issued on `context.Background()`
with the call options of the debug block. -/
def OrganizationRoleAssignedActors (names : PolicyNames) (cli : PermissionsServiceClient σ)
    (s : SpiceDB σ) (ctx : Context) (roleName : String) :
    SpiceDB σ × Option (List String) × Option GoError :=
  let opts := (debugSetup s ctx).2
  let req := assignedActorsRequest names s roleName
  match cli.readRelationships s.remote Context.background req opts with
  | (remote, .error err) =>
    ({ s with remote := remote,
              calls := s.calls ++ [Call.readRelationships Context.background req opts] },
      none, some err)
  | (remote, .ok resp) =>
    ({ s with remote := remote,
              calls := s.calls ++ [Call.readRelationships Context.background req opts] },
      recvAssigned resp [])

/-- The request `OrganizationRolePermissions` sends. -/
def rolePermissionsRequest (names : PolicyNames) (s : SpiceDB σ) (roleName orgID : String) :
    ReadRelationshipsRequest :=
  { consistency := .atLeastAsFresh s.zedToken
    relationshipFilter := orgRolePermissionsFilter names roleName orgID
    optionalLimit := 0
    optionalCursor := none }

/-- `(*SpiceDB).OrganizationRolePermissions`. -/
def OrganizationRolePermissions (names : PolicyNames) (cli : PermissionsServiceClient σ)
    (s : SpiceDB σ) (ctx : Context) (roleName orgID : String) :
    SpiceDB σ × Option (List String) × Option GoError :=
  let opts := (debugSetup s ctx).2
  let req := rolePermissionsRequest names s roleName orgID
  match cli.readRelationships s.remote Context.background req opts with
  | (remote, .error err) =>
    ({ s with remote := remote,
              calls := s.calls ++ [Call.readRelationships Context.background req opts] },
      none, some err)
  | (remote, .ok resp) =>
    ({ s with remote := remote,
              calls := s.calls ++ [Call.readRelationships Context.background req opts] },
      recvPerms resp [])

/-- The request of the filtered delete of `UpsertCustomOrganizationRole`. -/
def upsertDeleteRequest (names : PolicyNames) (roleName orgID : String) :
    DeleteRelationshipsRequest :=
  { relationshipFilter := orgRolePermissionsFilter names roleName orgID
    optionalPreconditions := []
    optionalLimit := 0
    optionalAllowPartialDeletions := false }

/-- The contents of `builder.Relationships` when the write is issued: the tuple added by
`newRole.Organization(org)` followed by what `assignPerms(newRole, org)` added. The step
`assignPerms` is given by the relationships it declares for the role and organization objects. -/
def upsertRelationships (names : PolicyNames) (roleName orgID : String)
    (assignPerms : ObjectReference → ObjectReference → List Relationship) : List Relationship :=
  [names.roleOrganization roleName orgID] ++
    assignPerms (names.orgRole roleName) (names.organization orgID)

/-- `(*SpiceDB).UpsertCustomOrganizationRole`. The delete is issued on `ctx` with no call
options. -/
def UpsertCustomOrganizationRole (names : PolicyNames) (cli : PermissionsServiceClient σ)
    (s : SpiceDB σ) (ctx : Context) (roleName orgID : String)
    (assignPerms : ObjectReference → ObjectReference → List Relationship) :
    SpiceDB σ × Option GoError :=
  let req := upsertDeleteRequest names roleName orgID
  match cli.deleteRelationships s.remote ctx req [] with
  | (remote, .error err) =>
    ({ s with remote := remote, calls := s.calls ++ [Call.deleteRelationships ctx req []] },
      some (GoError.wrapf "failed to delete existing relationships" err))
  | (remote, .ok resp) =>
    let s1 : SpiceDB σ := { s with
      remote := remote
      calls := s.calls ++ [Call.deleteRelationships ctx req []]
      zedToken := resp.deletedAt }
    match WriteRelationships cli s1 ctx (upsertRelationships names roleName orgID assignPerms) with
    | (s2, _, some err) => (s2, some (GoError.wrapf "failed to write relationships" err))
    | (s2, _, none) => (s2, none)

/-- The generic function `WithRelations[A, R]`. The host step `do` is a Go closure: it may act
on the client and on any host state `H` it closes over, so it is a function of both and returns
their next values together with its Go results `(R, error)`. `var empty R` is `default`.
`WriteRelationships` returns a non-nil closure whenever its error is nil, and `revert()` is the
run of that closure. -/
def WithRelations {H A R : Type} [Inhabited R] (cli : PermissionsServiceClient σ) (h : H)
    (s : SpiceDB σ) (ctx : Context) (relations : List Relationship)
    (doStep : Context → A → H × SpiceDB σ → (H × SpiceDB σ) × R × Option GoError) (arg : A) :
    (H × SpiceDB σ) × R × Option GoError :=
  match WriteRelationships cli s ctx relations with
  | (s1, _, some err) => ((h, s1), default, some (GoError.wrapf "write relationships" err))
  | (s1, revert, none) =>
    match doStep ctx arg (h, s1) with
    | ((h2, s2), r, some err) =>
      ((h2, match revert with
            | some rv => rv.run cli s2
            | none => s2), r, some err)
    | (w2, r, none) => (w2, r, none)

/-- The generic function `WithRelationsExec[A]`: `WithRelations` at the result type
`interface{}` with the step's result fixed to nil, of which only the error is returned. -/
def WithRelationsExec {H A : Type} (cli : PermissionsServiceClient σ) (h : H)
    (s : SpiceDB σ) (ctx : Context) (relations : List Relationship)
    (doStep : Context → A → H × SpiceDB σ → (H × SpiceDB σ) × Option GoError) (arg : A) :
    (H × SpiceDB σ) × Option GoError :=
  let res : (H × SpiceDB σ) × Unit × Option GoError :=
    WithRelations cli h s ctx relations
      (fun c a w => ((doStep c a w).1, (), (doStep c a w).2)) arg
  (res.1, res.2.2)

/-- Modelled from the spec: the transaction scope's owner "must invoke all registered reverts
together if its host operation fails, and must invoke none if it succeeds". Invokes the given
reverts one after the other. -/
def runReverts (cli : PermissionsServiceClient σ) (s : SpiceDB σ) : List Revert → SpiceDB σ
  | [] => s
  | r :: rs => runReverts cli (r.run cli s) rs

end Client

/-! ## A relationship store -/

/-- Whether a relationship matches a `RelationshipFilter`: the resource type must agree, and each
optional field, when set, must agree too. A subject relation filter matches the subject relation
exactly (the empty relation matches subjects without one). -/
def RelationshipFilter.matches (f : RelationshipFilter) (r : Relationship) : Bool :=
  decide (f.resourceType = r.resource.objectType) &&
  (decide (f.optionalResourceId = "") || decide (f.optionalResourceId = r.resource.objectId)) &&
  (decide (f.optionalResourceIdPrefix = "") ||
    f.optionalResourceIdPrefix.isPrefixOf r.resource.objectId) &&
  (decide (f.optionalRelation = "") || decide (f.optionalRelation = r.relation)) &&
  (match f.optionalSubjectFilter with
   | none => true
   | some sf =>
     decide (sf.subjectType = r.subject.object.objectType) &&
     (decide (sf.optionalSubjectId = "") ||
       decide (sf.optionalSubjectId = r.subject.object.objectId)) &&
     (match sf.optionalRelation with
      | none => true
      | some rel => decide (rel = r.subject.optionalRelation)))

/-- The remote store as a duplicate-free collection of tuples with a revision counter. -/
structure TupleStore where
  tuples : List Relationship
  revision : Nat
  deriving DecidableEq, Repr

/-- One update against the tuples: TOUCH (and CREATE) inserts the tuple unless present, DELETE
removes it. -/
def applyUpdate (tuples : List Relationship) (u : RelationshipUpdate) : List Relationship :=
  match u.operation with
  | .touch => if u.relationship ∈ tuples then tuples else tuples ++ [u.relationship]
  | .create => if u.relationship ∈ tuples then tuples else tuples ++ [u.relationship]
  | .delete => tuples.filter (fun r => decide (r ≠ u.relationship))
  | .unspecified => tuples

def applyUpdates (tuples : List Relationship) (updates : List RelationshipUpdate) :
    List Relationship :=
  updates.foldl applyUpdate tuples

/-- The token naming a revision. -/
def revisionToken (n : Nat) : ZedToken := { token := toString n }

/-- A remote service over `TupleStore`. Writes apply their updates in order, filtered deletes
remove exactly the matching tuples, reads stream exactly the matching tuples, and every
mutation answers the token of the new revision. With `writeFault = some e` every
`WriteRelationships` call fails with `e` and applies nothing. A check answers whether the
relation is granted by a tuple of the store. -/
def tupleStoreClient (writeFault : Option GoError) : PermissionsServiceClient TupleStore where
  checkPermission st _ req _ :=
    (st, .ok { permissionship :=
      if ({ resource := req.resource, relation := req.permission, subject := req.subject } :
          Relationship) ∈ st.tuples then .hasPermission else .noPermission })
  writeRelationships st _ req _ :=
    match writeFault with
    | some e => (st, .error e)
    | none =>
      ({ tuples := applyUpdates st.tuples req.updates, revision := st.revision + 1 },
        .ok { writtenAt := some (revisionToken (st.revision + 1)) })
  deleteRelationships st _ req _ :=
    ({ tuples := st.tuples.filter (fun r => !req.relationshipFilter.matches r),
       revision := st.revision + 1 },
      .ok { deletedAt := some (revisionToken (st.revision + 1)) })
  readRelationships st _ req _ :=
    (st, .ok ((st.tuples.filter (fun r => req.relationshipFilter.matches r)).map .ok))

/-- A remote service over `TupleStore` whose `ReadRelationships` always answers `result`. -/
def scriptedReadClient (result : Except GoError RelationshipStream) :
    PermissionsServiceClient TupleStore :=
  { tupleStoreClient none with readRelationships := fun st _ _ _ => (st, result) }

/-- The context a call was issued on. -/
def Call.ctx : Call → Context
  | .checkPermission ctx _ _ => ctx
  | .writeRelationships ctx _ _ => ctx
  | .deleteRelationships ctx _ _ => ctx
  | .readRelationships ctx _ _ => ctx

/-- The call options a call was issued with. -/
def Call.opts : Call → List CallOption
  | .checkPermission _ _ opts => opts
  | .writeRelationships _ _ opts => opts
  | .deleteRelationships _ _ opts => opts
  | .readRelationships _ _ opts => opts

/-- Whether a call carries the debug-information request header. -/
def Call.hasDebugHeader (c : Call) : Bool :=
  decide (requestDebugInformation ∈ c.ctx.requestHeaders)

/-- Whether a call carries the trailer-capture call option. -/
def Call.hasTrailerOption (c : Call) : Bool :=
  decide (CallOption.trailer ∈ c.opts)

/-! ## Concrete inputs used by the examples -/

def demoNames : PolicyNames :=
  { orgRoleType := "org_role", organizationType := "organization", relationMember := "member",
    relationHasRole := "has_role", relationOrganization := "organization" }

def demoStore : TupleStore := { tuples := [], revision := 0 }

def demoClient : SpiceDB TupleStore :=
  { remote := demoStore, zedToken := none, reverts := none, debug := false, calls := [],
    logs := [] }

def demoUserCtx : Context := AsUser "user" Context.background "u1"

def demoResource : ObjectReference := { objectType := "workspace", objectId := "w1" }

def demoTuple : Relationship :=
  { resource := demoResource, relation := "view",
    subject := { object := { objectType := "user", objectId := "u1" }, optionalRelation := "" } }

/-- A context for which debug mode is active. -/
def demoDebugCtx : Context := { demoUserCtx with debugRequested := true }

/-- A membership tuple of role `admin`. -/
def demoMember : Relationship :=
  { resource := { objectType := "org_role", objectId := "admin" }, relation := "member",
    subject := { object := { objectType := "user", objectId := "u1" }, optionalRelation := "" } }

/-- A store in which user `u1` is a member of role `admin` and the role holds a permission on
organization `o1`. -/
def demoRoleStoreTuples : List Relationship :=
  [demoMember, demoNames.permission "admin" "o1" "template_editor"]

/-- A remote service whose filtered delete always fails and applies nothing. -/
def failingDeleteClient (e : GoError) : PermissionsServiceClient TupleStore :=
  { tupleStoreClient none with deleteRelationships := fun st _ _ _ => (st, .error e) }

/-- The shape of a permission relation of role `roleName` on organization `orgID`: the resource
is the organization and the subject is the role. -/
def IsRolePermission (names : PolicyNames) (roleName orgID : String) (r : Relationship) : Prop :=
  r.resource = names.organization orgID ∧ r.subject = names.roleSubject roleName

instance (names : PolicyNames) (roleName orgID : String) (r : Relationship) :
    Decidable (IsRolePermission names roleName orgID r) := by
  unfold IsRolePermission
  infer_instance

/-- An actor-to-role membership tuple: the resource is a role and the relation is the member
relation. -/
def IsRoleMembership (names : PolicyNames) (r : Relationship) : Prop :=
  r.resource.objectType = names.orgRoleType ∧ r.relation = names.relationMember

instance (names : PolicyNames) (r : Relationship) : Decidable (IsRoleMembership names r) := by
  unfold IsRoleMembership
  infer_instance

/-! ## Helper lemmas -/

section Lemmas

variable {σ : Type}

theorem actorFromContext_asGod (ctx : Context) : ActorFromContext (AsGod ctx) = some godActor := by
  simp [ActorFromContext, AsGod, Context.withValue, Context.value]

theorem actorFromContext_unbound (ctx : Context)
    (h : ∀ kv ∈ ctx.values, kv.1 ≠ CtxKey.spiceActorKey) : ActorFromContext ctx = none := by
  have hfind : ctx.values.find? (fun kv => decide (kv.1 = CtxKey.spiceActorKey)) = none := by
    rw [List.find?_eq_none]
    intro kv hkv
    simpa using h kv hkv
  simp [ActorFromContext, Context.value, hfind]

theorem check_eq_of_ok (cli : PermissionsServiceClient σ) (s : SpiceDB σ) (ctx : Context)
    (permission : String) (resource : ObjectReference) (actor : SubjectReference) (remote : σ)
    (resp : CheckPermissionResponse)
    (hactor : ActorFromContext ctx = some actor) (hgod : isGod actor = false)
    (hresp : cli.checkPermission s.remote (debugSetup s ctx).1
      (checkRequest s permission resource actor) (debugSetup s ctx).2 = (remote, .ok resp)) :
    Check cli s ctx permission resource =
      ({ s with remote := remote,
                calls := s.calls ++ [Call.checkPermission (debugSetup s ctx).1
                  (checkRequest s permission resource actor) (debugSetup s ctx).2] },
        if resp.permissionship = .hasPermission then none
        else if resp.permissionship = .conditionalPermission then
          some (GoError.leaf "not authorized: conditional permission")
        else some (GoError.leaf "not authorized")) := by
  simp only [Check, hactor, hgod, hresp, Bool.false_eq_true, if_false]
  split_ifs <;> rfl

theorem check_calls (cli : PermissionsServiceClient σ) (s : SpiceDB σ) (ctx : Context)
    (permission : String) (resource : ObjectReference) (actor : SubjectReference)
    (hactor : ActorFromContext ctx = some actor) (hgod : isGod actor = false) :
    (Check cli s ctx permission resource).1.calls =
      s.calls ++ [Call.checkPermission (debugSetup s ctx).1
        (checkRequest s permission resource actor) (debugSetup s ctx).2] := by
  rcases h : cli.checkPermission s.remote (debugSetup s ctx).1
    (checkRequest s permission resource actor) (debugSetup s ctx).2 with ⟨remote, res⟩
  cases res
  · simp [Check, hactor, hgod, h]
  · simp only [Check, hactor, hgod, h, Bool.false_eq_true, if_false]
    split_ifs <;> rfl

theorem writeRelationships_of_error (cli : PermissionsServiceClient σ) (s : SpiceDB σ)
    (ctx : Context) (relationships : List Relationship) (remote : σ) (err : GoError)
    (hfail : cli.writeRelationships s.remote (debugSetup s ctx).1 (writeRequest relationships)
      (debugSetup s ctx).2 = (remote, .error err)) :
    WriteRelationships cli s ctx relationships =
      ({ s with remote := remote,
                calls := s.calls ++ [Call.writeRelationships (debugSetup s ctx).1
                  (writeRequest relationships) (debugSetup s ctx).2] },
        none, some (GoError.wrapf "write relationship" err)) := by
  simp only [WriteRelationships, hfail]

theorem writeRelationships_of_ok (cli : PermissionsServiceClient σ) (s : SpiceDB σ)
    (ctx : Context) (relationships : List Relationship) (remote : σ)
    (resp : WriteRelationshipsResponse)
    (hok : cli.writeRelationships s.remote (debugSetup s ctx).1 (writeRequest relationships)
      (debugSetup s ctx).2 = (remote, .ok resp)) :
    WriteRelationships cli s ctx relationships =
      match s.reverts with
      | some rs =>
        ({ s with remote := remote,
                  calls := s.calls ++ [Call.writeRelationships (debugSetup s ctx).1
                    (writeRequest relationships) (debugSetup s ctx).2],
                  zedToken := resp.writtenAt,
                  reverts := some (rs ++ [Revert.deleteWritten (debugSetup s ctx).1
                    (debugSetup s ctx).2 (touchUpdates relationships)]) },
          some Revert.noop, none)
      | none =>
        ({ s with remote := remote,
                  calls := s.calls ++ [Call.writeRelationships (debugSetup s ctx).1
                    (writeRequest relationships) (debugSetup s ctx).2],
                  zedToken := resp.writtenAt },
          some (Revert.deleteWritten (debugSetup s ctx).1 (debugSetup s ctx).2
            (touchUpdates relationships)), none) := by
  simp only [WriteRelationships, hok]
  cases s.reverts <;> rfl

theorem writeRelationships_calls (cli : PermissionsServiceClient σ) (s : SpiceDB σ)
    (ctx : Context) (relationships : List Relationship) :
    (WriteRelationships cli s ctx relationships).1.calls =
      s.calls ++ [Call.writeRelationships (debugSetup s ctx).1 (writeRequest relationships)
        (debugSetup s ctx).2] := by
  rcases h : cli.writeRelationships s.remote (debugSetup s ctx).1 (writeRequest relationships)
    (debugSetup s ctx).2 with ⟨remote, res⟩
  cases res with
  | error err => rw [writeRelationships_of_error cli s ctx relationships remote err h]
  | ok resp =>
    rw [writeRelationships_of_ok cli s ctx relationships remote resp h]
    cases s.reverts <;> rfl

theorem assignedActors_calls (names : PolicyNames) (cli : PermissionsServiceClient σ)
    (s : SpiceDB σ) (ctx : Context) (roleName : String) :
    (OrganizationRoleAssignedActors names cli s ctx roleName).1.calls =
      s.calls ++ [Call.readRelationships Context.background
        (assignedActorsRequest names s roleName) (debugSetup s ctx).2] := by
  rcases h : cli.readRelationships s.remote Context.background
    (assignedActorsRequest names s roleName) (debugSetup s ctx).2 with ⟨remote, res⟩
  cases res <;> simp only [OrganizationRoleAssignedActors, h]

theorem rolePermissions_calls (names : PolicyNames) (cli : PermissionsServiceClient σ)
    (s : SpiceDB σ) (ctx : Context) (roleName orgID : String) :
    (OrganizationRolePermissions names cli s ctx roleName orgID).1.calls =
      s.calls ++ [Call.readRelationships Context.background
        (rolePermissionsRequest names s roleName orgID) (debugSetup s ctx).2] := by
  rcases h : cli.readRelationships s.remote Context.background
    (rolePermissionsRequest names s roleName orgID) (debugSetup s ctx).2 with ⟨remote, res⟩
  cases res <;> simp only [OrganizationRolePermissions, h]

theorem touchUpdates_cons (r : Relationship) (rest : List Relationship) :
    touchUpdates (r :: rest) = { operation := .touch, relationship := r } :: touchUpdates rest :=
  rfl

theorem markDelete_touchUpdates (relationships : List Relationship) :
    markDelete (touchUpdates relationships) =
      relationships.map (fun r => { operation := .delete, relationship := r }) := by
  simp [markDelete, touchUpdates, List.map_map, Function.comp_def]

theorem markDelete_cons (u : RelationshipUpdate) (rest : List RelationshipUpdate) :
    markDelete (u :: rest) =
      { operation := .delete, relationship := u.relationship } :: markDelete rest :=
  rfl

theorem applyUpdates_cons (tuples : List Relationship) (u : RelationshipUpdate)
    (rest : List RelationshipUpdate) :
    applyUpdates tuples (u :: rest) = applyUpdates (applyUpdate tuples u) rest :=
  rfl

theorem mem_applyUpdate_touch (tuples : List Relationship) (r x : Relationship) :
    x ∈ applyUpdate tuples { operation := .touch, relationship := r } ↔ x ∈ tuples ∨ x = r := by
  simp only [applyUpdate]
  split_ifs with h
  · constructor
    · exact Or.inl
    · rintro (h1 | h1)
      · exact h1
      · exact h1 ▸ h
  · simp

theorem mem_applyUpdate_delete (tuples : List Relationship) (r x : Relationship) :
    x ∈ applyUpdate tuples { operation := .delete, relationship := r } ↔ x ∈ tuples ∧ x ≠ r := by
  simp [applyUpdate]

theorem mem_applyUpdates_touch (relationships : List Relationship) :
    ∀ (tuples : List Relationship) (x : Relationship),
      x ∈ applyUpdates tuples (touchUpdates relationships) ↔ x ∈ tuples ∨ x ∈ relationships := by
  induction relationships with
  | nil => intro tuples x; simp [touchUpdates, applyUpdates]
  | cons r rest ih =>
    intro tuples x
    rw [touchUpdates_cons, applyUpdates_cons, ih, mem_applyUpdate_touch, List.mem_cons]
    tauto

theorem mem_applyUpdates_markDelete (updates : List RelationshipUpdate) :
    ∀ (tuples : List Relationship) (x : Relationship),
      x ∈ applyUpdates tuples (markDelete updates) ↔
        x ∈ tuples ∧ ∀ u ∈ updates, x ≠ u.relationship := by
  induction updates with
  | nil => intro tuples x; simp [markDelete, applyUpdates]
  | cons u rest ih =>
    intro tuples x
    rw [markDelete_cons, applyUpdates_cons, ih, mem_applyUpdate_delete]
    simp only [List.mem_cons, forall_eq_or_imp]
    tauto

theorem mem_touchUpdates_relationship (relationships : List Relationship) (x : Relationship)
    (hx : x ∈ relationships) :
    ∃ u ∈ touchUpdates relationships, u.relationship = x :=
  ⟨{ operation := .touch, relationship := x }, List.mem_map.mpr ⟨x, hx, rfl⟩, rfl⟩

/-- On the tuple store a revert leaves no tuple that is not already there. -/
theorem revert_run_tuples_subset (t : SpiceDB TupleStore) (r : Revert) (x : Relationship)
    (hx : x ∈ (r.run (tupleStoreClient none) t).remote.tuples) : x ∈ t.remote.tuples := by
  cases r with
  | noop => exact hx
  | deleteWritten ctx opts updates =>
    simp only [Revert.run, tupleStoreClient, revertRequest] at hx
    exact ((mem_applyUpdates_markDelete updates _ x).mp hx).1

/-- On the tuple store a revert removes every tuple of the updates it closes over. -/
theorem revert_run_removes (t : SpiceDB TupleStore) (ctx : Context) (opts : List CallOption)
    (updates : List RelationshipUpdate) (u : RelationshipUpdate) (hu : u ∈ updates) :
    u.relationship ∉
      ((Revert.deleteWritten ctx opts updates).run (tupleStoreClient none) t).remote.tuples := by
  intro hx
  simp only [Revert.run, tupleStoreClient, revertRequest] at hx
  exact ((mem_applyUpdates_markDelete updates _ _).mp hx).2 u hu rfl

theorem runReverts_tuples_subset (rs : List Revert) :
    ∀ (t : SpiceDB TupleStore) (x : Relationship),
      x ∈ (runReverts (tupleStoreClient none) t rs).remote.tuples → x ∈ t.remote.tuples := by
  induction rs with
  | nil => intro t x hx; exact hx
  | cons r rest ih =>
    intro t x hx
    exact revert_run_tuples_subset t r x (ih _ x hx)

theorem runReverts_removes (rs : List Revert) :
    ∀ (t : SpiceDB TupleStore) (ctx : Context) (opts : List CallOption)
      (updates : List RelationshipUpdate) (u : RelationshipUpdate),
      Revert.deleteWritten ctx opts updates ∈ rs → u ∈ updates →
      u.relationship ∉ (runReverts (tupleStoreClient none) t rs).remote.tuples := by
  induction rs with
  | nil => intro t ctx opts updates u hr; simp at hr
  | cons r rest ih =>
    intro t ctx opts updates u hr hu hx
    rcases List.mem_cons.mp hr with h | h
    · subst h
      exact revert_run_removes t ctx opts updates u hu
        (runReverts_tuples_subset rest _ _ hx)
    · exact ih _ ctx opts updates u h hu hx

/-- The result of a write against the tuple store, outside a transaction scope. -/
theorem store_write_unscoped (t : SpiceDB TupleStore) (ctx : Context)
    (relationships : List Relationship) (hscope : t.reverts = none) :
    WriteRelationships (tupleStoreClient none) t ctx relationships =
      ({ t with
          remote := { tuples := applyUpdates t.remote.tuples (touchUpdates relationships),
                      revision := t.remote.revision + 1 },
          calls := t.calls ++ [Call.writeRelationships (debugSetup t ctx).1
            (writeRequest relationships) (debugSetup t ctx).2],
          zedToken := some (revisionToken (t.remote.revision + 1)) },
        some (Revert.deleteWritten (debugSetup t ctx).1 (debugSetup t ctx).2
          (touchUpdates relationships)), none) := by
  rw [writeRelationships_of_ok (tupleStoreClient none) t ctx relationships _ _ rfl, hscope]
  rfl

/-- The result of a write against the tuple store, inside a transaction scope. -/
theorem store_write_scoped (t : SpiceDB TupleStore) (ctx : Context)
    (relationships : List Relationship) (rs : List Revert) (hscope : t.reverts = some rs) :
    WriteRelationships (tupleStoreClient none) t ctx relationships =
      ({ t with
          remote := { tuples := applyUpdates t.remote.tuples (touchUpdates relationships),
                      revision := t.remote.revision + 1 },
          calls := t.calls ++ [Call.writeRelationships (debugSetup t ctx).1
            (writeRequest relationships) (debugSetup t ctx).2],
          zedToken := some (revisionToken (t.remote.revision + 1)),
          reverts := some (rs ++ [Revert.deleteWritten (debugSetup t ctx).1 (debugSetup t ctx).2
            (touchUpdates relationships)]) },
        some Revert.noop, none) := by
  rw [writeRelationships_of_ok (tupleStoreClient none) t ctx relationships _ _ rfl, hscope]
  rfl

theorem orgRolePermissionsFilter_matches (names : PolicyNames) (roleName orgID : String)
    (x : Relationship) :
    (orgRolePermissionsFilter names roleName orgID).matches x = true ↔
      names.organizationType = x.resource.objectType ∧
      (orgID = "" ∨ orgID = x.resource.objectId) ∧
      names.orgRoleType = x.subject.object.objectType ∧
      (roleName = "" ∨ roleName = x.subject.object.objectId) ∧
      names.relationHasRole = x.subject.optionalRelation := by
  simp [RelationshipFilter.matches, orgRolePermissionsFilter, PolicyNames.organization,
    PolicyNames.roleSubject, PolicyNames.orgRole, and_assoc]

theorem assignedActorsFilter_matches (names : PolicyNames) (roleName : String)
    (x : Relationship) :
    (assignedActorsFilter names roleName).matches x = true ↔
      names.orgRoleType = x.resource.objectType ∧
      (roleName = "" ∨ roleName = x.resource.objectId) ∧
      (names.relationMember = "" ∨ names.relationMember = x.relation) := by
  simp [RelationshipFilter.matches, assignedActorsFilter, PolicyNames.orgRole, and_assoc]

theorem isRolePermission_matches (names : PolicyNames) (roleName orgID : String)
    (x : Relationship) (h : IsRolePermission names roleName orgID x) :
    (orgRolePermissionsFilter names roleName orgID).matches x = true := by
  rw [orgRolePermissionsFilter_matches]
  obtain ⟨h1, h2⟩ := h
  simp [h1, h2, PolicyNames.organization, PolicyNames.roleSubject, PolicyNames.orgRole]

theorem roleOrganization_not_matches (names : PolicyNames) (roleName orgID : String)
    (htypes : names.organizationType ≠ names.orgRoleType) :
    (orgRolePermissionsFilter names roleName orgID).matches
      (names.roleOrganization roleName orgID) = false := by
  rw [Bool.eq_false_iff, Ne, orgRolePermissionsFilter_matches]
  rintro ⟨h, -⟩
  exact htypes h

theorem recvPerms_ok (l : List Relationship) :
    ∀ acc : List String,
      recvPerms (l.map .ok) acc = (some (acc ++ l.map (fun r => r.relation)), none) := by
  induction l with
  | nil => intro acc; simp [recvPerms]
  | cons r rest ih => intro acc; simp [recvPerms, ih]

theorem recvAssigned_ok (l : List Relationship) :
    ∀ acc : List String,
      recvAssigned (l.map .ok) acc =
        (some (acc ++ l.map (fun r => r.subject.object.objectId)), none) := by
  induction l with
  | nil => intro acc; simp [recvAssigned]
  | cons r rest ih => intro acc; simp [recvAssigned, ih]

theorem filter_applyUpdates_touch (p : Relationship → Bool) (relationships : List Relationship) :
    ∀ tuples : List Relationship, (∀ r ∈ relationships, p r = false) →
      (applyUpdates tuples (touchUpdates relationships)).filter p = tuples.filter p := by
  induction relationships with
  | nil => intro tuples _; rfl
  | cons r rest ih =>
    intro tuples h
    rw [touchUpdates_cons, applyUpdates_cons, ih _ (fun x hx => h x (List.mem_cons_of_mem _ hx))]
    simp only [applyUpdate]
    split_ifs
    · rfl
    · simp [List.filter_append, h r (List.mem_cons_self _ _)]

theorem upsert_of_delete_error (names : PolicyNames) (cli : PermissionsServiceClient σ)
    (s : SpiceDB σ) (ctx : Context) (roleName orgID : String)
    (assignPerms : ObjectReference → ObjectReference → List Relationship) (remote : σ)
    (err : GoError)
    (hdel : cli.deleteRelationships s.remote ctx (upsertDeleteRequest names roleName orgID) [] =
      (remote, .error err)) :
    UpsertCustomOrganizationRole names cli s ctx roleName orgID assignPerms =
      ({ s with remote := remote,
                calls := s.calls ++ [Call.deleteRelationships ctx
                  (upsertDeleteRequest names roleName orgID) []] },
        some (GoError.wrapf "failed to delete existing relationships" err)) := by
  simp only [UpsertCustomOrganizationRole, hdel]

theorem upsert_of_delete_ok (names : PolicyNames) (cli : PermissionsServiceClient σ)
    (s : SpiceDB σ) (ctx : Context) (roleName orgID : String)
    (assignPerms : ObjectReference → ObjectReference → List Relationship) (remote : σ)
    (resp : DeleteRelationshipsResponse)
    (hdel : cli.deleteRelationships s.remote ctx (upsertDeleteRequest names roleName orgID) [] =
      (remote, .ok resp)) :
    UpsertCustomOrganizationRole names cli s ctx roleName orgID assignPerms =
      ((WriteRelationships cli
        { s with remote := remote,
                 calls := s.calls ++ [Call.deleteRelationships ctx
                   (upsertDeleteRequest names roleName orgID) []],
                 zedToken := resp.deletedAt }
        ctx (upsertRelationships names roleName orgID assignPerms)).1,
       (WriteRelationships cli
        { s with remote := remote,
                 calls := s.calls ++ [Call.deleteRelationships ctx
                   (upsertDeleteRequest names roleName orgID) []],
                 zedToken := resp.deletedAt }
        ctx (upsertRelationships names roleName orgID assignPerms)).2.2.map
          (GoError.wrapf "failed to write relationships")) := by
  simp only [UpsertCustomOrganizationRole, hdel]
  rcases WriteRelationships cli
    { s with remote := remote,
             calls := s.calls ++ [Call.deleteRelationships ctx
               (upsertDeleteRequest names roleName orgID) []],
             zedToken := resp.deletedAt }
    ctx (upsertRelationships names roleName orgID assignPerms) with ⟨s2, r, _ | e⟩ <;> rfl

/-- The store and the error after a write against the tuple store. -/
theorem store_write (t : SpiceDB TupleStore) (ctx : Context)
    (relationships : List Relationship) :
    (WriteRelationships (tupleStoreClient none) t ctx relationships).2.2 = none ∧
    (WriteRelationships (tupleStoreClient none) t ctx relationships).1.remote.tuples =
      applyUpdates t.remote.tuples (touchUpdates relationships) := by
  cases hr : t.reverts with
  | none =>
    rw [store_write_unscoped _ _ _ hr]
    exact ⟨rfl, rfl⟩
  | some rs =>
    rw [store_write_scoped _ _ _ rs hr]
    exact ⟨rfl, rfl⟩

/-- The outcome of an upsert against the tuple store. -/
theorem store_upsert (names : PolicyNames) (t : SpiceDB TupleStore) (ctx : Context)
    (roleName orgID : String)
    (assignPerms : ObjectReference → ObjectReference → List Relationship) :
    (UpsertCustomOrganizationRole names (tupleStoreClient none) t ctx roleName orgID
      assignPerms).2 = none ∧
    (UpsertCustomOrganizationRole names (tupleStoreClient none) t ctx roleName orgID
      assignPerms).1.remote.tuples =
      applyUpdates
        (t.remote.tuples.filter
          (fun r => !(orgRolePermissionsFilter names roleName orgID).matches r))
        (touchUpdates (upsertRelationships names roleName orgID assignPerms)) := by
  rw [upsert_of_delete_ok names (tupleStoreClient none) t ctx roleName orgID assignPerms _ _ rfl]
  refine ⟨?_, ?_⟩
  · simp only [(store_write _ ctx _).1, Option.map_none']
  · simp only [(store_write _ ctx _).2]
    rfl

theorem store_rolePermissions (names : PolicyNames) (t : SpiceDB TupleStore) (ctx : Context)
    (roleName orgID : String) :
    (OrganizationRolePermissions names (tupleStoreClient none) t ctx roleName orgID).2 =
      (some ((t.remote.tuples.filter
        (fun r => (orgRolePermissionsFilter names roleName orgID).matches r)).map
          (fun r => r.relation)), none) := by
  simp only [OrganizationRolePermissions, tupleStoreClient, rolePermissionsRequest]
  rw [recvPerms_ok]
  rfl

theorem store_assignedActors (names : PolicyNames) (t : SpiceDB TupleStore) (ctx : Context)
    (roleName : String) :
    (OrganizationRoleAssignedActors names (tupleStoreClient none) t ctx roleName).2 =
      (some ((t.remote.tuples.filter
        (fun r => (assignedActorsFilter names roleName).matches r)).map
          (fun r => r.subject.object.objectId)), none) := by
  simp only [OrganizationRoleAssignedActors, tupleStoreClient, assignedActorsRequest]
  rw [recvAssigned_ok]
  rfl

theorem filter_touch_clean (p : Relationship → Bool) (tuples : List Relationship)
    (r : Relationship) (hclean : tuples.filter p = []) (hr : p r = true) :
    (applyUpdate tuples { operation := .touch, relationship := r }).filter p = [r] := by
  have hnot : r ∉ tuples := by
    intro hmem
    have : r ∈ tuples.filter p := List.mem_filter.mpr ⟨hmem, hr⟩
    rw [hclean] at this
    simp at this
  simp [applyUpdate, hnot, List.filter_append, hclean, hr]

theorem filter_filter_not (p : Relationship → Bool) (tuples : List Relationship) :
    (tuples.filter (fun r => !p r)).filter p = [] := by
  rw [List.filter_eq_nil_iff]
  intro r hr
  have := (List.mem_filter.mp hr).2
  simpa using this

theorem GoError.self_mem_chain (e : GoError) : e ∈ e.chain := by
  cases e <;> simp [GoError.chain]

/-- Both listing functions return the error of the opening `ReadRelationships` call as it is. -/
theorem listing_of_open_error (names : PolicyNames) (cli : PermissionsServiceClient σ)
    (s : SpiceDB σ) (ctx : Context) (roleName orgID : String) (remote1 remote2 : σ)
    (e : GoError)
    (hactors : cli.readRelationships s.remote Context.background
      (assignedActorsRequest names s roleName) (debugSetup s ctx).2 = (remote1, .error e))
    (hperms : cli.readRelationships s.remote Context.background
      (rolePermissionsRequest names s roleName orgID) (debugSetup s ctx).2 =
        (remote2, .error e)) :
    (OrganizationRoleAssignedActors names cli s ctx roleName).2 = (none, some e) ∧
    (OrganizationRolePermissions names cli s ctx roleName orgID).2 = (none, some e) := by
  constructor
  · simp only [OrganizationRoleAssignedActors, hactors]
  · simp only [OrganizationRolePermissions, hperms]

theorem check_of_error (cli : PermissionsServiceClient σ) (s : SpiceDB σ) (ctx : Context)
    (permission : String) (resource : ObjectReference) (actor : SubjectReference) (remote : σ)
    (e : GoError)
    (hactor : ActorFromContext ctx = some actor) (hgod : isGod actor = false)
    (hfail : cli.checkPermission s.remote (debugSetup s ctx).1
      (checkRequest s permission resource actor) (debugSetup s ctx).2 = (remote, .error e)) :
    (Check cli s ctx permission resource).2 = some (GoError.wrapf "check permission" e) := by
  simp only [Check, hactor, hgod, hfail, Bool.false_eq_true, if_false]

/-- When debug mode is active the debug block yields a context with the debug-information header
and the trailer-capture option. -/
theorem debugSetup_of_debugging (s : SpiceDB σ) (ctx : Context)
    (hdebug : s.debugging ctx = true) :
    requestDebugInformation ∈ (debugSetup s ctx).1.requestHeaders ∧
    CallOption.trailer ∈ (debugSetup s ctx).2 := by
  simp [debugSetup, hdebug, debugSpiceDBRPC, addRequestHeaders]

/-- The one call a revert closure issues. -/
theorem revert_run_calls (cli : PermissionsServiceClient σ) (t : SpiceDB σ) (ctx : Context)
    (opts : List CallOption) (relationships : List Relationship) :
    ((Revert.deleteWritten ctx opts (touchUpdates relationships)).run cli t).calls =
      t.calls ++ [Call.writeRelationships ctx
        { updates := relationships.map (fun r => { operation := .delete, relationship := r }),
          optionalPreconditions := [] } opts] := by
  have hreq : revertRequest (touchUpdates relationships) =
      { updates := relationships.map (fun r => { operation := .delete, relationship := r }),
        optionalPreconditions := [] } := by
    simp [revertRequest, markDelete_touchUpdates]
  simp only [Revert.run, hreq]
  rcases h : cli.writeRelationships t.remote ctx
    { updates := relationships.map (fun r => { operation := .delete, relationship := r }),
      optionalPreconditions := [] } opts with ⟨remote2, res⟩
  cases res with
  | error e => rfl
  | ok rsp =>
    simp only
    cases rsp.writtenAt <;> rfl

theorem withRelations_of_write_error {H A R : Type} [Inhabited R]
    (cli : PermissionsServiceClient σ) (h : H) (s : SpiceDB σ) (ctx : Context)
    (relations : List Relationship)
    (doStep : Context → A → H × SpiceDB σ → (H × SpiceDB σ) × R × Option GoError) (arg : A)
    (remote : σ) (err : GoError)
    (hfail : cli.writeRelationships s.remote (debugSetup s ctx).1 (writeRequest relations)
      (debugSetup s ctx).2 = (remote, .error err)) :
    WithRelations cli h s ctx relations doStep arg =
      ((h, (WriteRelationships cli s ctx relations).1), default,
        some (GoError.wrapf "write relationships" (GoError.wrapf "write relationship" err))) := by
  simp only [WithRelations, writeRelationships_of_error cli s ctx relations remote err hfail]

theorem withRelations_of_write_ok {H A R : Type} [Inhabited R]
    (cli : PermissionsServiceClient σ) (h : H) (s : SpiceDB σ) (ctx : Context)
    (relations : List Relationship)
    (doStep : Context → A → H × SpiceDB σ → (H × SpiceDB σ) × R × Option GoError) (arg : A)
    (remote : σ) (resp : WriteRelationshipsResponse) (hscope : s.reverts = none)
    (hok : cli.writeRelationships s.remote (debugSetup s ctx).1 (writeRequest relations)
      (debugSetup s ctx).2 = (remote, .ok resp)) :
    WithRelations cli h s ctx relations doStep arg =
      match doStep ctx arg (h, (WriteRelationships cli s ctx relations).1) with
      | ((h2, s2), r, some err) =>
        ((h2, (Revert.deleteWritten (debugSetup s ctx).1 (debugSetup s ctx).2
          (touchUpdates relations)).run cli s2), r, some err)
      | (w2, r, none) => (w2, r, none) := by
  simp only [WithRelations, writeRelationships_of_ok cli s ctx relations remote resp hok, hscope]

theorem withRelationsExec_eq {H A : Type} (cli : PermissionsServiceClient σ) (h : H)
    (s : SpiceDB σ) (ctx : Context) (relations : List Relationship)
    (doStep : Context → A → H × SpiceDB σ → (H × SpiceDB σ) × Option GoError) (arg : A) :
    WithRelationsExec cli h s ctx relations doStep arg =
      ((WithRelations cli h s ctx relations
          (fun c a w => ((doStep c a w).1, (), (doStep c a w).2)) arg).1,
       (WithRelations cli h s ctx relations
          (fun c a w => ((doStep c a w).1, (), (doStep c a w).2)) arg).2.2) :=
  rfl

theorem applyUpdates_markDelete_eq_filter (updates : List RelationshipUpdate) :
    ∀ tuples : List Relationship,
      applyUpdates tuples (markDelete updates) =
        tuples.filter (fun x => decide (x ∉ updates.map (fun u => u.relationship))) := by
  induction updates with
  | nil => intro tuples; simp [markDelete, applyUpdates]
  | cons u rest ih =>
    intro tuples
    rw [markDelete_cons, applyUpdates_cons, ih]
    simp only [applyUpdate, List.filter_filter]
    apply List.filter_congr
    intro x _
    simp only [List.map_cons, List.mem_cons, not_or]
    by_cases h1 : x = u.relationship <;>
      by_cases h2 : x ∈ rest.map (fun u => u.relationship) <;> simp [h1, h2]

theorem touchUpdates_relationships (relationships : List Relationship) :
    (touchUpdates relationships).map (fun u => u.relationship) = relationships := by
  simp [touchUpdates, List.map_map, Function.comp_def]

/-- On the tuple store, running the delete closure of a write of `T` right after it leaves the
prior tuples that are not in `T`, in their order. -/
theorem store_write_then_revert (tuples : List Relationship) (T : List Relationship) :
    applyUpdates (applyUpdates tuples (touchUpdates T)) (markDelete (touchUpdates T)) =
      tuples.filter (fun x => decide (x ∉ T)) := by
  rw [applyUpdates_markDelete_eq_filter, touchUpdates_relationships]
  exact filter_applyUpdates_touch _ T tuples (fun r hr => by simp [hr])

end Lemmas

/-! ## The permission checker -/

section Checker

variable {σ : Type}

/-- C1: for a context bound to a non-bootstrap actor and a successful CheckPermission response,
Check succeeds exactly when the permissionship is HAS_PERMISSION; on CONDITIONAL_PERMISSION it
fails with "not authorized: conditional permission"; on every other permissionship it fails with
"not authorized"; and the two denial errors (and their messages) differ. -/
theorem check_outcome_mapping (cli : PermissionsServiceClient σ) (s : SpiceDB σ) (ctx : Context)
    (permission : String) (resource : ObjectReference) (actor : SubjectReference) (remote : σ)
    (resp : CheckPermissionResponse)
    (hactor : ActorFromContext ctx = some actor) (hgod : isGod actor = false)
    (hresp : cli.checkPermission s.remote (debugSetup s ctx).1
      (checkRequest s permission resource actor) (debugSetup s ctx).2 = (remote, .ok resp)) :
    ((Check cli s ctx permission resource).2 = none ↔ resp.permissionship = .hasPermission) ∧
    (resp.permissionship = .conditionalPermission →
      (Check cli s ctx permission resource).2 =
        some (GoError.leaf "not authorized: conditional permission")) ∧
    (resp.permissionship ≠ .hasPermission → resp.permissionship ≠ .conditionalPermission →
      (Check cli s ctx permission resource).2 = some (GoError.leaf "not authorized")) ∧
    GoError.leaf "not authorized: conditional permission" ≠ GoError.leaf "not authorized" ∧
    (GoError.leaf "not authorized: conditional permission").message ≠
      (GoError.leaf "not authorized").message := by
  rw [check_eq_of_ok cli s ctx permission resource actor remote resp hactor hgod hresp]
  refine ⟨?_, ?_, ?_, by decide, by decide⟩
  · constructor
    · intro h
      by_contra hne
      simp only [if_neg hne] at h
      split_ifs at h
    · intro h
      simp [h]
  · intro h
    simp [h]
  · intro h1 h2
    simp [h1, h2]

theorem check_outcome_mapping_witness :
    ((Check (tupleStoreClient none) demoClient demoUserCtx "view" demoResource).2 = none ↔
        (CheckPermissionResponse.mk .noPermission).permissionship = .hasPermission) ∧
    ((CheckPermissionResponse.mk .noPermission).permissionship = .conditionalPermission →
      (Check (tupleStoreClient none) demoClient demoUserCtx "view" demoResource).2 =
        some (GoError.leaf "not authorized: conditional permission")) ∧
    ((CheckPermissionResponse.mk .noPermission).permissionship ≠ .hasPermission →
      (CheckPermissionResponse.mk .noPermission).permissionship ≠ .conditionalPermission →
      (Check (tupleStoreClient none) demoClient demoUserCtx "view" demoResource).2 =
        some (GoError.leaf "not authorized")) ∧
    GoError.leaf "not authorized: conditional permission" ≠ GoError.leaf "not authorized" ∧
    (GoError.leaf "not authorized: conditional permission").message ≠
      (GoError.leaf "not authorized").message :=
  check_outcome_mapping (tupleStoreClient none) demoClient demoUserCtx "view" demoResource
    { object := { objectType := "user", objectId := "u1" }, optionalRelation := "" }
    demoStore { permissionship := .noPermission } (by decide) (by decide) rfl

/-- C2: for every context, permission, resource and remote service, Check on the context bound
by AsGod succeeds and leaves the client, its trace of issued calls included, unchanged: no
CheckPermission call is issued. -/
theorem check_god_succeeds_without_call (cli : PermissionsServiceClient σ) (s : SpiceDB σ)
    (ctx : Context) (permission : String) (resource : ObjectReference) :
    Check cli s (AsGod ctx) permission resource = (s, none) ∧
    (Check cli s (AsGod ctx) permission resource).1.calls = s.calls := by
  have hg : isGod godActor = true := by decide
  simp [Check, actorFromContext_asGod, hg]

/-- C3: in a context with no binding of the actor key, ActorFromContext reports not found, and
Check returns exactly NoActorError, whose chain contains sql.ErrNoRows, leaving the client and
its trace of calls unchanged; the result differs from that of the bootstrap actor. -/
theorem check_no_actor (cli : PermissionsServiceClient σ) (s : SpiceDB σ) (ctx : Context)
    (permission : String) (resource : ObjectReference)
    (hunbound : ∀ kv ∈ ctx.values, kv.1 ≠ CtxKey.spiceActorKey) :
    ActorFromContext ctx = none ∧
    Check cli s ctx permission resource = (s, some NoActorError) ∧
    NoActorError.is sqlErrNoRows = true ∧
    (Check cli s ctx permission resource).1.calls = s.calls ∧
    (Check cli s ctx permission resource).2 ≠ (Check cli s (AsGod ctx) permission resource).2 := by
  have hnone := actorFromContext_unbound ctx hunbound
  have hg : isGod godActor = true := by decide
  refine ⟨hnone, ?_, by decide, ?_, ?_⟩
  · simp [Check, hnone]
  · simp [Check, hnone]
  · simp [Check, hnone, actorFromContext_asGod, hg]

theorem check_no_actor_witness :
    (∀ kv ∈ (Context.background.withValue (.other "revert") (.other "fn")).values,
      kv.1 ≠ CtxKey.spiceActorKey) ∧
    ActorFromContext (Context.background.withValue (.other "revert") (.other "fn")) = none ∧
    Check (tupleStoreClient none) demoClient
      (Context.background.withValue (.other "revert") (.other "fn")) "view" demoResource =
        (demoClient, some NoActorError) :=
  ⟨by decide,
   (check_no_actor (tupleStoreClient none) demoClient
      (Context.background.withValue (.other "revert") (.other "fn")) "view" demoResource
      (by decide)).1,
   (check_no_actor (tupleStoreClient none) demoClient
      (Context.background.withValue (.other "revert") (.other "fn")) "view" demoResource
      (by decide)).2.1⟩

end Checker

/-! ## The consistency tracker and the relationship writer -/

section Writer

variable {σ : Type}

/-- C4: on any client state, a Check by a non-bootstrap actor and both listing calls each issue
one call whose consistency requirement is "at least as fresh as" the tracker's current value; a
successful WriteRelationships sets the tracker to the token of its response, whatever the
tracker held before, so the check and the reads that follow require at least that token. -/
theorem reads_at_least_as_fresh_as_tracker (names : PolicyNames)
    (cli : PermissionsServiceClient σ) (s : SpiceDB σ) (ctx : Context)
    (relationships : List Relationship) :
    (∀ (t : SpiceDB σ) (cctx : Context) (permission : String) (resource : ObjectReference)
        (actor : SubjectReference), ActorFromContext cctx = some actor → isGod actor = false →
      ∃ c, (Check cli t cctx permission resource).1.calls = t.calls ++ [c] ∧
        c.consistency = some (.atLeastAsFresh t.zedToken)) ∧
    (∀ (t : SpiceDB σ) (cctx : Context) (roleName : String),
      ∃ c, (OrganizationRoleAssignedActors names cli t cctx roleName).1.calls = t.calls ++ [c] ∧
        c.consistency = some (.atLeastAsFresh t.zedToken)) ∧
    (∀ (t : SpiceDB σ) (cctx : Context) (roleName orgID : String),
      ∃ c, (OrganizationRolePermissions names cli t cctx roleName orgID).1.calls =
          t.calls ++ [c] ∧
        c.consistency = some (.atLeastAsFresh t.zedToken)) ∧
    (∀ (remote : σ) (resp : WriteRelationshipsResponse),
      cli.writeRelationships s.remote (debugSetup s ctx).1 (writeRequest relationships)
        (debugSetup s ctx).2 = (remote, .ok resp) →
      (WriteRelationships cli s ctx relationships).1.zedToken = resp.writtenAt ∧
      (∀ (cctx : Context) (permission : String) (resource : ObjectReference)
          (actor : SubjectReference), ActorFromContext cctx = some actor → isGod actor = false →
        ∃ c, (Check cli (WriteRelationships cli s ctx relationships).1 cctx permission
              resource).1.calls =
            (WriteRelationships cli s ctx relationships).1.calls ++ [c] ∧
          c.consistency = some (.atLeastAsFresh resp.writtenAt)) ∧
      (∀ (cctx : Context) (roleName : String),
        ∃ c, (OrganizationRoleAssignedActors names cli
              (WriteRelationships cli s ctx relationships).1 cctx roleName).1.calls =
            (WriteRelationships cli s ctx relationships).1.calls ++ [c] ∧
          c.consistency = some (.atLeastAsFresh resp.writtenAt)) ∧
      (∀ (cctx : Context) (roleName orgID : String),
        ∃ c, (OrganizationRolePermissions names cli
              (WriteRelationships cli s ctx relationships).1 cctx roleName orgID).1.calls =
            (WriteRelationships cli s ctx relationships).1.calls ++ [c] ∧
          c.consistency = some (.atLeastAsFresh resp.writtenAt))) := by
  have hcheck : ∀ (t : SpiceDB σ) (cctx : Context) (permission : String)
      (resource : ObjectReference) (actor : SubjectReference),
      ActorFromContext cctx = some actor → isGod actor = false →
      ∃ c, (Check cli t cctx permission resource).1.calls = t.calls ++ [c] ∧
        c.consistency = some (.atLeastAsFresh t.zedToken) := by
    intro t cctx permission resource actor ha hg
    exact ⟨_, check_calls cli t cctx permission resource actor ha hg, rfl⟩
  have hactors : ∀ (t : SpiceDB σ) (cctx : Context) (roleName : String),
      ∃ c, (OrganizationRoleAssignedActors names cli t cctx roleName).1.calls = t.calls ++ [c] ∧
        c.consistency = some (.atLeastAsFresh t.zedToken) := by
    intro t cctx roleName
    exact ⟨_, assignedActors_calls names cli t cctx roleName, rfl⟩
  have hperms : ∀ (t : SpiceDB σ) (cctx : Context) (roleName orgID : String),
      ∃ c, (OrganizationRolePermissions names cli t cctx roleName orgID).1.calls =
          t.calls ++ [c] ∧
        c.consistency = some (.atLeastAsFresh t.zedToken) := by
    intro t cctx roleName orgID
    exact ⟨_, rolePermissions_calls names cli t cctx roleName orgID, rfl⟩
  refine ⟨hcheck, hactors, hperms, ?_⟩
  intro remote resp hok
  have htok : (WriteRelationships cli s ctx relationships).1.zedToken = resp.writtenAt := by
    rw [writeRelationships_of_ok cli s ctx relationships remote resp hok]
    cases s.reverts <;> rfl
  refine ⟨htok, ?_, ?_, ?_⟩
  · intro cctx permission resource actor ha hg
    rw [← htok]
    exact hcheck _ cctx permission resource actor ha hg
  · intro cctx roleName
    rw [← htok]
    exact hactors _ cctx roleName
  · intro cctx roleName orgID
    rw [← htok]
    exact hperms _ cctx roleName orgID

theorem reads_at_least_as_fresh_as_tracker_witness :
    (∃ c, (Check (tupleStoreClient (some (.leaf "unavailable")))
          { demoClient with zedToken := some (revisionToken 7) }
          demoUserCtx "view" demoResource).1.calls = [c] ∧
      c.consistency = some (.atLeastAsFresh (some (revisionToken 7)))) ∧
    (WriteRelationships (tupleStoreClient none) demoClient demoUserCtx [demoTuple]).1.zedToken =
      some (revisionToken 1) ∧
    ∃ c, (Check (tupleStoreClient none)
          (WriteRelationships (tupleStoreClient none) demoClient demoUserCtx [demoTuple]).1
          demoUserCtx "view" demoResource).1.calls =
        (WriteRelationships (tupleStoreClient none) demoClient demoUserCtx
          [demoTuple]).1.calls ++ [c] ∧
      c.consistency = some (.atLeastAsFresh (some (revisionToken 1))) :=
  have hfail := (reads_at_least_as_fresh_as_tracker demoNames
    (tupleStoreClient (some (.leaf "unavailable"))) demoClient demoUserCtx [demoTuple]).1
    { demoClient with zedToken := some (revisionToken 7) } demoUserCtx "view" demoResource
    { object := { objectType := "user", objectId := "u1" }, optionalRelation := "" }
    (by decide) (by decide)
  have h := (reads_at_least_as_fresh_as_tracker demoNames (tupleStoreClient none) demoClient
    demoUserCtx [demoTuple]).2.2.2
    { tuples := applyUpdates demoStore.tuples (writeRequest [demoTuple]).updates, revision := 1 }
    { writtenAt := some (revisionToken 1) } rfl
  ⟨hfail, h.1, h.2.1 demoUserCtx "view" demoResource
    { object := { objectType := "user", objectId := "u1" }, optionalRelation := "" }
    (by decide) (by decide)⟩

/-- C5: when the remote WriteRelationships call fails, WriteRelationships returns a wrapped
error and a nil revert, leaves the tracker and the registered reverts of the transaction scope
as they were, and has issued exactly one call. -/
theorem write_failure_aborts (cli : PermissionsServiceClient σ) (s : SpiceDB σ) (ctx : Context)
    (relationships : List Relationship) (remote : σ) (err : GoError)
    (hfail : cli.writeRelationships s.remote (debugSetup s ctx).1 (writeRequest relationships)
      (debugSetup s ctx).2 = (remote, .error err)) :
    (WriteRelationships cli s ctx relationships).2.2 =
      some (GoError.wrapf "write relationship" err) ∧
    (WriteRelationships cli s ctx relationships).2.1 = none ∧
    (WriteRelationships cli s ctx relationships).1.zedToken = s.zedToken ∧
    (WriteRelationships cli s ctx relationships).1.reverts = s.reverts ∧
    (WriteRelationships cli s ctx relationships).1.calls =
      s.calls ++ [Call.writeRelationships (debugSetup s ctx).1 (writeRequest relationships)
        (debugSetup s ctx).2] := by
  rw [writeRelationships_of_error cli s ctx relationships remote err hfail]
  exact ⟨rfl, rfl, rfl, rfl, rfl⟩

theorem write_failure_aborts_witness :
    (WriteRelationships (tupleStoreClient (some (.leaf "unavailable")))
        { demoClient with zedToken := some (revisionToken 7), reverts := some [] }
        demoUserCtx [demoTuple]).2.2 =
      some (GoError.wrapf "write relationship" (.leaf "unavailable")) ∧
    (WriteRelationships (tupleStoreClient (some (.leaf "unavailable")))
        { demoClient with zedToken := some (revisionToken 7), reverts := some [] }
        demoUserCtx [demoTuple]).2.1 = none ∧
    (WriteRelationships (tupleStoreClient (some (.leaf "unavailable")))
        { demoClient with zedToken := some (revisionToken 7), reverts := some [] }
        demoUserCtx [demoTuple]).1.zedToken = some (revisionToken 7) ∧
    (WriteRelationships (tupleStoreClient (some (.leaf "unavailable")))
        { demoClient with zedToken := some (revisionToken 7), reverts := some [] }
        demoUserCtx [demoTuple]).1.reverts = some [] :=
  have h := write_failure_aborts (tupleStoreClient (some (.leaf "unavailable")))
    { demoClient with zedToken := some (revisionToken 7), reverts := some [] }
    demoUserCtx [demoTuple] demoStore (.leaf "unavailable") rfl
  ⟨h.1, h.2.1, h.2.2.1, h.2.2.2.1⟩

/-- C6: outside a transaction scope a successful write of T sends one request whose updates
are the TOUCH of each tuple of T in order; the returned revert sends exactly one request with
the same tuples in the same order, each as DELETE, and when that delete answers a token the
tracker holds it afterwards. Over the tuple store no tuple of T is left after write and revert,
and a read whose filter matches only tuples of T streams nothing. -/
theorem write_then_revert_is_delete_batch (cli : PermissionsServiceClient σ) (s : SpiceDB σ)
    (ctx : Context) (T : List Relationship) (remote : σ) (resp : WriteRelationshipsResponse)
    (hscope : s.reverts = none)
    (hok : cli.writeRelationships s.remote (debugSetup s ctx).1 (writeRequest T)
      (debugSetup s ctx).2 = (remote, .ok resp)) :
    (WriteRelationships cli s ctx T).1.calls =
      s.calls ++ [Call.writeRelationships (debugSetup s ctx).1
        { updates := T.map (fun r => { operation := .touch, relationship := r }),
          optionalPreconditions := [] } (debugSetup s ctx).2] ∧
    (writeRequest T).updates.length = T.length ∧
    (∀ (i : Nat) (r : Relationship), T[i]? = some r →
      (writeRequest T).updates[i]? = some { operation := .touch, relationship := r }) ∧
    (∃ revert, (WriteRelationships cli s ctx T).2 = (some revert, none) ∧
      ∀ t : SpiceDB σ,
        (revert.run cli t).calls = t.calls ++ [Call.writeRelationships (debugSetup s ctx).1
          { updates := T.map (fun r => { operation := .delete, relationship := r }),
            optionalPreconditions := [] } (debugSetup s ctx).2] ∧
        ∀ (remote2 : σ) (tok : ZedToken),
          cli.writeRelationships t.remote (debugSetup s ctx).1
            { updates := T.map (fun r => { operation := .delete, relationship := r }),
              optionalPreconditions := [] } (debugSetup s ctx).2 =
            (remote2, .ok { writtenAt := some tok }) →
          (revert.run cli t).zedToken = some tok) ∧
    (∀ (t : SpiceDB TupleStore) (c : Context), t.reverts = none →
      ∃ revert, (WriteRelationships (tupleStoreClient none) t c T).2 = (some revert, none) ∧
        (∀ r ∈ T, r ∉ (revert.run (tupleStoreClient none)
          (WriteRelationships (tupleStoreClient none) t c T).1).remote.tuples) ∧
        ∀ (rc : Context) (req : ReadRelationshipsRequest) (o : List CallOption),
          (∀ r, req.relationshipFilter.matches r = true → r ∈ T) →
          ((tupleStoreClient none).readRelationships (revert.run (tupleStoreClient none)
            (WriteRelationships (tupleStoreClient none) t c T).1).remote rc req o).2 =
              .ok []) := by
  refine ⟨?_, ?_, ?_, ?_, ?_⟩
  · rw [writeRelationships_of_ok cli s ctx T remote resp hok, hscope]
    rfl
  · simp [writeRequest, touchUpdates]
  · intro i r hi
    simp [writeRequest, touchUpdates, hi]
  · refine ⟨Revert.deleteWritten (debugSetup s ctx).1 (debugSetup s ctx).2 (touchUpdates T),
      ?_, ?_⟩
    · rw [writeRelationships_of_ok cli s ctx T remote resp hok, hscope]
    · intro t
      have hreq : revertRequest (touchUpdates T) =
          { updates := T.map (fun r => { operation := .delete, relationship := r }),
            optionalPreconditions := [] } := by
        simp [revertRequest, markDelete_touchUpdates]
      constructor
      · simp only [Revert.run, hreq]
        rcases h : cli.writeRelationships t.remote (debugSetup s ctx).1
          { updates := T.map (fun r => { operation := .delete, relationship := r }),
            optionalPreconditions := [] } (debugSetup s ctx).2 with ⟨remote2, res⟩
        cases res with
        | error e => rfl
        | ok rsp =>
          simp only
          cases rsp.writtenAt <;> rfl
      · intro remote2 tok h
        simp only [Revert.run, hreq, h]
  · intro t c ht
    refine ⟨Revert.deleteWritten (debugSetup t c).1 (debugSetup t c).2 (touchUpdates T), ?_, ?_⟩
    · rw [store_write_unscoped t c T ht]
    · have habsent : ∀ r ∈ T, r ∉ ((Revert.deleteWritten (debugSetup t c).1 (debugSetup t c).2
          (touchUpdates T)).run (tupleStoreClient none)
          (WriteRelationships (tupleStoreClient none) t c T).1).remote.tuples := by
        intro r hr
        obtain ⟨u, hu, hrel⟩ := mem_touchUpdates_relationship T r hr
        rw [← hrel]
        exact revert_run_removes _ _ _ _ u hu
      refine ⟨habsent, ?_⟩
      intro rc req o hfilter
      simp only [tupleStoreClient]
      have hnil : List.filter (fun r => req.relationshipFilter.matches r)
          ((Revert.deleteWritten (debugSetup t c).1 (debugSetup t c).2
            (touchUpdates T)).run (tupleStoreClient none)
            (WriteRelationships (tupleStoreClient none) t c T).1).remote.tuples = [] := by
        rw [List.filter_eq_nil_iff]
        intro r hr hm
        exact habsent r (hfilter r hm) hr
      simp only [tupleStoreClient] at hnil
      rw [hnil]
      rfl

theorem write_then_revert_is_delete_batch_witness :
    (WriteRelationships (tupleStoreClient none) demoClient demoUserCtx [demoTuple]).1.calls =
      [Call.writeRelationships demoUserCtx
        { updates := [{ operation := .touch, relationship := demoTuple }],
          optionalPreconditions := [] } []] ∧
    ∃ revert, (WriteRelationships (tupleStoreClient none) demoClient demoUserCtx
        [demoTuple]).2 = (some revert, none) ∧
      ∀ r ∈ [demoTuple], r ∉ (revert.run (tupleStoreClient none)
        (WriteRelationships (tupleStoreClient none) demoClient demoUserCtx
          [demoTuple]).1).remote.tuples :=
  have h := write_then_revert_is_delete_batch (tupleStoreClient none) demoClient demoUserCtx
    [demoTuple]
    { tuples := applyUpdates demoStore.tuples (writeRequest [demoTuple]).updates, revision := 1 }
    { writtenAt := some (revisionToken 1) } rfl rfl
  ⟨h.1, (h.2.2.2.2 demoClient demoUserCtx rfl).imp (fun _ hr => ⟨hr.1, hr.2.1⟩)⟩

/-- C7: inside a transaction scope a successful write registers its revert in the scope and
returns the no-op closure, whose invocation changes nothing and issues no call. Over the tuple
store, after Write(A) and Write(B) in a scope, invoking all registered reverts, in any order,
leaves no tuple of A or of B, while invoking none leaves every tuple of A and of B in place. -/
theorem scope_registers_reverts (cli : PermissionsServiceClient σ) (s : SpiceDB σ)
    (ctx : Context) (T : List Relationship) (rs : List Revert) (remote : σ)
    (resp : WriteRelationshipsResponse)
    (hscope : s.reverts = some rs)
    (hok : cli.writeRelationships s.remote (debugSetup s ctx).1 (writeRequest T)
      (debugSetup s ctx).2 = (remote, .ok resp)) :
    (WriteRelationships cli s ctx T).2 = (some Revert.noop, none) ∧
    (WriteRelationships cli s ctx T).1.reverts =
      some (rs ++ [Revert.deleteWritten (debugSetup s ctx).1 (debugSetup s ctx).2
        (touchUpdates T)]) ∧
    (∀ t : SpiceDB σ, Revert.noop.run cli t = t) ∧
    (∀ (t : SpiceDB TupleStore) (regs : List Revert) (ca cb : Context)
        (A B : List Relationship), t.reverts = some regs →
      ∃ registered,
        (WriteRelationships (tupleStoreClient none)
          (WriteRelationships (tupleStoreClient none) t ca A).1 cb B).1.reverts =
            some registered ∧
        registered.length = regs.length + 2 ∧
        (∀ order : List Revert, order.Perm registered → ∀ r, r ∈ A ∨ r ∈ B →
          r ∉ (runReverts (tupleStoreClient none)
            (WriteRelationships (tupleStoreClient none)
              (WriteRelationships (tupleStoreClient none) t ca A).1 cb B).1
            order).remote.tuples) ∧
        (∀ r, r ∈ A ∨ r ∈ B →
          r ∈ (WriteRelationships (tupleStoreClient none)
            (WriteRelationships (tupleStoreClient none) t ca A).1 cb B).1.remote.tuples)) := by
  refine ⟨?_, ?_, fun t => rfl, ?_⟩
  · rw [writeRelationships_of_ok cli s ctx T remote resp hok, hscope]
  · rw [writeRelationships_of_ok cli s ctx T remote resp hok, hscope]
  · intro t regs ca cb A B ht
    have hA := store_write_scoped t ca A regs ht
    have hregA : (WriteRelationships (tupleStoreClient none) t ca A).1.reverts =
        some (regs ++ [Revert.deleteWritten (debugSetup t ca).1 (debugSetup t ca).2
          (touchUpdates A)]) := by rw [hA]
    have hB := store_write_scoped (WriteRelationships (tupleStoreClient none) t ca A).1 cb B
      _ hregA
    refine ⟨_, by rw [hB], by simp, ?_, ?_⟩
    · intro order hperm r hr
      rcases hr with hr | hr
      · obtain ⟨u, hu, hrel⟩ := mem_touchUpdates_relationship A r hr
        rw [← hrel]
        refine runReverts_removes order _ (debugSetup t ca).1 (debugSetup t ca).2
          (touchUpdates A) u ?_ hu
        exact hperm.symm.subset (by simp)
      · obtain ⟨u, hu, hrel⟩ := mem_touchUpdates_relationship B r hr
        rw [← hrel]
        refine runReverts_removes order _
          (debugSetup (WriteRelationships (tupleStoreClient none) t ca A).1 cb).1
          (debugSetup (WriteRelationships (tupleStoreClient none) t ca A).1 cb).2
          (touchUpdates B) u ?_ hu
        exact hperm.symm.subset (by simp)
    · intro r hr
      rw [hB]
      simp only
      rw [mem_applyUpdates_touch, hA]
      simp only
      rw [mem_applyUpdates_touch]
      tauto

theorem scope_registers_reverts_witness :
    (WriteRelationships (tupleStoreClient none) { demoClient with reverts := some [] }
      demoUserCtx [demoTuple]).2 = (some Revert.noop, none) ∧
    (WriteRelationships (tupleStoreClient none) { demoClient with reverts := some [] }
      demoUserCtx [demoTuple]).1.reverts =
        some [Revert.deleteWritten demoUserCtx [] (touchUpdates [demoTuple])] :=
  have h := scope_registers_reverts (tupleStoreClient none)
    { demoClient with reverts := some [] } demoUserCtx [demoTuple] []
    { tuples := applyUpdates demoStore.tuples (writeRequest [demoTuple]).updates, revision := 1 }
    { writtenAt := some (revisionToken 1) } rfl rfl
  ⟨h.1, h.2.1⟩

end Writer

/-! ## The role manager -/

section Roles

/-- C8: over the tuple store, with roles and organizations of different object types, an upsert
whose assign step declares the permission tuples P of role R on organization O succeeds and
leaves exactly the tuples of P as the permission relations of (R, O), whether these are taken by
their shape or by the filter of OrganizationRolePermissions, P empty included; upserting p1, p2
and then p3 makes OrganizationRolePermissions(R, O) return exactly p3. -/
theorem upsert_replaces_role_permissions (names : PolicyNames) (t : SpiceDB TupleStore)
    (ctx : Context) (roleName orgID : String)
    (assignPerms : ObjectReference → ObjectReference → List Relationship)
    (htypes : names.organizationType ≠ names.orgRoleType)
    (hshape : ∀ p ∈ assignPerms (names.orgRole roleName) (names.organization orgID),
      IsRolePermission names roleName orgID p) :
    (UpsertCustomOrganizationRole names (tupleStoreClient none) t ctx roleName orgID
      assignPerms).2 = none ∧
    (∀ x, (x ∈ (UpsertCustomOrganizationRole names (tupleStoreClient none) t ctx roleName orgID
          assignPerms).1.remote.tuples ∧ IsRolePermission names roleName orgID x) ↔
      x ∈ assignPerms (names.orgRole roleName) (names.organization orgID)) ∧
    (∀ x, (x ∈ (UpsertCustomOrganizationRole names (tupleStoreClient none) t ctx roleName orgID
          assignPerms).1.remote.tuples ∧
        (orgRolePermissionsFilter names roleName orgID).matches x = true) ↔
      x ∈ assignPerms (names.orgRole roleName) (names.organization orgID)) ∧
    (∀ (p1 p2 p3 : String) (c2 c3 : Context),
      (OrganizationRolePermissions names (tupleStoreClient none)
        (UpsertCustomOrganizationRole names (tupleStoreClient none)
          (UpsertCustomOrganizationRole names (tupleStoreClient none) t ctx roleName orgID
            (fun _ _ => [names.permission roleName orgID p1,
              names.permission roleName orgID p2])).1
          c2 roleName orgID (fun _ _ => [names.permission roleName orgID p3])).1
        c3 roleName orgID).2 = (some [p3], none)) := by
  have hro := roleOrganization_not_matches names roleName orgID htypes
  have hfilter : ∀ x, (x ∈ (UpsertCustomOrganizationRole names (tupleStoreClient none) t ctx
        roleName orgID assignPerms).1.remote.tuples ∧
        (orgRolePermissionsFilter names roleName orgID).matches x = true) ↔
      x ∈ assignPerms (names.orgRole roleName) (names.organization orgID) := by
    intro x
    rw [(store_upsert names t ctx roleName orgID assignPerms).2, mem_applyUpdates_touch,
      upsertRelationships, List.mem_filter]
    simp only [List.singleton_append, List.mem_cons, Bool.not_eq_true']
    constructor
    · rintro ⟨(⟨-, h⟩ | h | h), hm⟩
      · rw [h] at hm
        exact absurd hm (by simp)
      · rw [h, hro] at hm
        exact absurd hm (by simp)
      · exact h
    · intro h
      exact ⟨Or.inr (Or.inr h), isRolePermission_matches names roleName orgID x (hshape x h)⟩
  refine ⟨(store_upsert names t ctx roleName orgID assignPerms).1, ?_, hfilter, ?_⟩
  · intro x
    constructor
    · rintro ⟨hx, hp⟩
      exact (hfilter x).mp ⟨hx, isRolePermission_matches names roleName orgID x hp⟩
    · intro h
      exact ⟨((hfilter x).mpr h).1, hshape x h⟩
  · intro p1 p2 p3 c2 c3
    rw [store_rolePermissions, (store_upsert names _ c2 roleName orgID _).2]
    have hp3 : (orgRolePermissionsFilter names roleName orgID).matches
        (names.permission roleName orgID p3) = true :=
      isRolePermission_matches names roleName orgID _ ⟨rfl, rfl⟩
    have hclean := filter_filter_not
      (fun r => (orgRolePermissionsFilter names roleName orgID).matches r)
      (UpsertCustomOrganizationRole names (tupleStoreClient none) t ctx roleName orgID
        (fun _ _ => [names.permission roleName orgID p1,
          names.permission roleName orgID p2])).1.remote.tuples
    have hclean1 := filter_applyUpdates_touch
      (fun r => (orgRolePermissionsFilter names roleName orgID).matches r)
      [names.roleOrganization roleName orgID] _ (by simpa using hro) ▸ hclean
    have hlist := filter_touch_clean
      (fun r => (orgRolePermissionsFilter names roleName orgID).matches r) _
      (names.permission roleName orgID p3) hclean1 hp3
    simp only [upsertRelationships, List.singleton_append, touchUpdates_cons, applyUpdates_cons]
    simp only [touchUpdates_cons, applyUpdates_cons] at hlist
    have hnil : touchUpdates [] = [] := rfl
    have hnil2 : ∀ l, applyUpdates l [] = l := fun _ => rfl
    simp only [hnil, hnil2] at hlist ⊢
    rw [hlist]
    rfl

theorem upsert_replaces_role_permissions_witness :
    (∀ p ∈ (fun (_ _ : ObjectReference) => [demoNames.permission "admin" "o1" "workspace_viewer"])
        (demoNames.orgRole "admin") (demoNames.organization "o1"),
      IsRolePermission demoNames "admin" "o1" p) ∧
    (UpsertCustomOrganizationRole demoNames (tupleStoreClient none) demoClient demoUserCtx
      "admin" "o1"
      (fun _ _ => [demoNames.permission "admin" "o1" "workspace_viewer"])).2 = none :=
  ⟨by decide,
   (upsert_replaces_role_permissions demoNames demoClient demoUserCtx "admin" "o1"
      (fun _ _ => [demoNames.permission "admin" "o1" "workspace_viewer"])
      (by decide) (by decide)).1⟩

/-- C9: the delete filter of an upsert matches only tuples whose resource is an organization
(the organization O when its id is not empty) and never a membership tuple, and the tuples the
upsert writes contain no membership tuple. Over the tuple store, with distinct object types for
roles and organizations and a member relation that is neither empty nor the role-to-organization
relation, every membership tuple is in the store after the upsert exactly when it was there
before, and OrganizationRoleAssignedActors returns the same list before and after, for every
role. -/
theorem upsert_preserves_role_members (names : PolicyNames) (t : SpiceDB TupleStore)
    (ctx : Context) (roleName orgID : String)
    (assignPerms : ObjectReference → ObjectReference → List Relationship)
    (htypes : names.organizationType ≠ names.orgRoleType)
    (hmember : names.relationMember ≠ names.relationOrganization)
    (hne : names.relationMember ≠ "")
    (hshape : ∀ p ∈ assignPerms (names.orgRole roleName) (names.organization orgID),
      IsRolePermission names roleName orgID p) :
    (∀ x, (orgRolePermissionsFilter names roleName orgID).matches x = true →
      x.resource.objectType = names.organizationType ∧
      (orgID ≠ "" → x.resource = names.organization orgID)) ∧
    (∀ x, IsRoleMembership names x →
      (orgRolePermissionsFilter names roleName orgID).matches x = false) ∧
    (∀ x ∈ upsertRelationships names roleName orgID assignPerms, ¬ IsRoleMembership names x) ∧
    (∀ x, IsRoleMembership names x →
      (x ∈ (UpsertCustomOrganizationRole names (tupleStoreClient none) t ctx roleName orgID
          assignPerms).1.remote.tuples ↔ x ∈ t.remote.tuples)) ∧
    (∀ (cq : Context) (role : String),
      (OrganizationRoleAssignedActors names (tupleStoreClient none)
        (UpsertCustomOrganizationRole names (tupleStoreClient none) t ctx roleName orgID
          assignPerms).1 cq role).2 =
      (OrganizationRoleAssignedActors names (tupleStoreClient none) t cq role).2) := by
  have hres : ∀ x, (orgRolePermissionsFilter names roleName orgID).matches x = true →
      x.resource.objectType = names.organizationType ∧
      (orgID ≠ "" → x.resource = names.organization orgID) := by
    intro x hx
    rw [orgRolePermissionsFilter_matches] at hx
    refine ⟨hx.1.symm, fun hO => ?_⟩
    rcases hx.2.1 with h | h
    · exact absurd h hO
    · cases x with
      | mk resource relation subject =>
        cases resource with
        | mk ty id =>
          simp only [PolicyNames.organization] at hx h ⊢
          rw [h, hx.1]
  have hnomatch : ∀ x, IsRoleMembership names x →
      (orgRolePermissionsFilter names roleName orgID).matches x = false := by
    intro x hx
    rw [Bool.eq_false_iff]
    intro hm
    exact htypes ((hres x hm).1.symm.trans hx.1)
  have hwritten : ∀ x ∈ upsertRelationships names roleName orgID assignPerms,
      ¬ IsRoleMembership names x := by
    intro x hx hmem
    simp only [upsertRelationships, List.singleton_append, List.mem_cons] at hx
    rcases hx with h | h
    · rw [h] at hmem
      exact hmember hmem.2.symm
    · have hp := (hshape x h).1
      have h1 := hmem.1
      rw [hp] at h1
      exact htypes h1
  refine ⟨hres, hnomatch, hwritten, ?_, ?_⟩
  · intro x hx
    rw [(store_upsert names t ctx roleName orgID assignPerms).2, mem_applyUpdates_touch,
      List.mem_filter]
    constructor
    · rintro (⟨h, -⟩ | h)
      · exact h
      · exact absurd hx (hwritten x h)
    · intro h
      exact Or.inl ⟨h, by simp [hnomatch x hx]⟩
  · intro cq role
    rw [store_assignedActors, store_assignedActors,
      (store_upsert names t ctx roleName orgID assignPerms).2]
    have hwr : ∀ r ∈ upsertRelationships names roleName orgID assignPerms,
        (fun r => (assignedActorsFilter names role).matches r) r = false := by
      intro r hr
      simp only
      rw [Bool.eq_false_iff]
      intro hm
      rw [assignedActorsFilter_matches] at hm
      simp only [upsertRelationships, List.singleton_append, List.mem_cons] at hr
      rcases hr with h | h
      · rcases hm.2.2 with h2 | h2
        · exact hne h2
        · rw [h] at h2
          exact hmember h2
      · have hp := (hshape r h).1
        rw [hp] at hm
        exact htypes hm.1.symm
    have hsame : List.filter
        (fun a => (assignedActorsFilter names role).matches a &&
          !(orgRolePermissionsFilter names roleName orgID).matches a) t.remote.tuples =
        List.filter (fun r => (assignedActorsFilter names role).matches r) t.remote.tuples := by
      apply List.filter_congr
      intro x _
      cases hm : (assignedActorsFilter names role).matches x with
      | false => simp
      | true =>
        rw [assignedActorsFilter_matches] at hm
        have : (orgRolePermissionsFilter names roleName orgID).matches x = false := by
          rw [Bool.eq_false_iff]
          intro hm2
          exact htypes ((hres x hm2).1.symm.trans hm.1.symm)
        simp [this]
    rw [filter_applyUpdates_touch _ _ _ hwr, List.filter_filter, hsame]

theorem upsert_preserves_role_members_witness :
    (OrganizationRoleAssignedActors demoNames (tupleStoreClient none)
      { demoClient with remote := { tuples := demoRoleStoreTuples, revision := 3 } }
      demoUserCtx "admin").2 = (some ["u1"], none) ∧
    (OrganizationRoleAssignedActors demoNames (tupleStoreClient none)
      (UpsertCustomOrganizationRole demoNames (tupleStoreClient none)
        { demoClient with remote := { tuples := demoRoleStoreTuples, revision := 3 } }
        demoUserCtx "admin" "o1"
        (fun _ _ => [demoNames.permission "admin" "o1" "workspace_viewer"])).1
      demoUserCtx "admin").2 = (some ["u1"], none) ∧
    demoMember ∈ (UpsertCustomOrganizationRole demoNames (tupleStoreClient none)
      { demoClient with remote := { tuples := demoRoleStoreTuples, revision := 3 } }
      demoUserCtx "admin" "o1"
      (fun _ _ => [demoNames.permission "admin" "o1" "workspace_viewer"])).1.remote.tuples ∧
    demoNames.permission "admin" "o1" "template_editor" ∉
      (UpsertCustomOrganizationRole demoNames (tupleStoreClient none)
        { demoClient with remote := { tuples := demoRoleStoreTuples, revision := 3 } }
        demoUserCtx "admin" "o1"
        (fun _ _ => [demoNames.permission "admin" "o1" "workspace_viewer"])).1.remote.tuples :=
  have h := upsert_preserves_role_members demoNames
    { demoClient with remote := { tuples := demoRoleStoreTuples, revision := 3 } } demoUserCtx
    "admin" "o1" (fun _ _ => [demoNames.permission "admin" "o1" "workspace_viewer"])
    (by decide) (by decide) (by decide) (by decide)
  have hbefore : (OrganizationRoleAssignedActors demoNames (tupleStoreClient none)
      { demoClient with remote := { tuples := demoRoleStoreTuples, revision := 3 } }
      demoUserCtx "admin").2 = (some ["u1"], none) := by decide
  ⟨hbefore, (h.2.2.2.2 demoUserCtx "admin").trans hbefore,
    (h.2.2.2.1 demoMember (by decide)).mpr (by decide), by decide⟩

/-- C10: every upsert issues the filtered delete first, and whatever follows it is a
WriteRelationships call. When the delete fails the upsert returns the wrapped error, issues no
write and leaves the tracker as it was. When the delete succeeds and the write fails the upsert
returns the wrapped error, the tracker holds the token of the delete, and the calls issued are
the delete and the one write of TOUCH updates, with no further call; over a store whose writes
fail, no tuple matching the permission filter is left. -/
theorem upsert_failure_ordering {σ : Type} (names : PolicyNames)
    (cli : PermissionsServiceClient σ) (s : SpiceDB σ) (ctx : Context) (roleName orgID : String)
    (assignPerms : ObjectReference → ObjectReference → List Relationship) :
    (∃ rest, (UpsertCustomOrganizationRole names cli s ctx roleName orgID assignPerms).1.calls =
        s.calls ++ Call.deleteRelationships ctx (upsertDeleteRequest names roleName orgID) [] ::
          rest ∧
      ∀ c ∈ rest, ∃ wctx wreq wopts, c = Call.writeRelationships wctx wreq wopts) ∧
    (∀ (remote : σ) (err : GoError),
      cli.deleteRelationships s.remote ctx (upsertDeleteRequest names roleName orgID) [] =
        (remote, .error err) →
      (UpsertCustomOrganizationRole names cli s ctx roleName orgID assignPerms).2 =
        some (GoError.wrapf "failed to delete existing relationships" err) ∧
      (UpsertCustomOrganizationRole names cli s ctx roleName orgID assignPerms).1.calls =
        s.calls ++ [Call.deleteRelationships ctx (upsertDeleteRequest names roleName orgID) []] ∧
      (UpsertCustomOrganizationRole names cli s ctx roleName orgID assignPerms).1.zedToken =
        s.zedToken) ∧
    (∀ (remote remote2 : σ) (resp : DeleteRelationshipsResponse) (err : GoError),
      cli.deleteRelationships s.remote ctx (upsertDeleteRequest names roleName orgID) [] =
        (remote, .ok resp) →
      cli.writeRelationships remote (debugSetup s ctx).1
        (writeRequest (upsertRelationships names roleName orgID assignPerms))
        (debugSetup s ctx).2 = (remote2, .error err) →
      (UpsertCustomOrganizationRole names cli s ctx roleName orgID assignPerms).2 =
        some (GoError.wrapf "failed to write relationships"
          (GoError.wrapf "write relationship" err)) ∧
      (UpsertCustomOrganizationRole names cli s ctx roleName orgID assignPerms).1.zedToken =
        resp.deletedAt ∧
      (UpsertCustomOrganizationRole names cli s ctx roleName orgID assignPerms).1.remote =
        remote2 ∧
      (UpsertCustomOrganizationRole names cli s ctx roleName orgID assignPerms).1.calls =
        s.calls ++ [Call.deleteRelationships ctx (upsertDeleteRequest names roleName orgID) [],
          Call.writeRelationships (debugSetup s ctx).1
            (writeRequest (upsertRelationships names roleName orgID assignPerms))
            (debugSetup s ctx).2]) ∧
    (∀ (t : SpiceDB TupleStore) (e : GoError),
      (UpsertCustomOrganizationRole names (tupleStoreClient (some e)) t ctx roleName orgID
        assignPerms).2 = some (GoError.wrapf "failed to write relationships"
          (GoError.wrapf "write relationship" e)) ∧
      ∀ x ∈ (UpsertCustomOrganizationRole names (tupleStoreClient (some e)) t ctx roleName
          orgID assignPerms).1.remote.tuples,
        (orgRolePermissionsFilter names roleName orgID).matches x = false) := by
  have hfailwrite : ∀ (remote remote2 : σ) (resp : DeleteRelationshipsResponse) (err : GoError),
      cli.deleteRelationships s.remote ctx (upsertDeleteRequest names roleName orgID) [] =
        (remote, .ok resp) →
      cli.writeRelationships remote (debugSetup s ctx).1
        (writeRequest (upsertRelationships names roleName orgID assignPerms))
        (debugSetup s ctx).2 = (remote2, .error err) →
      UpsertCustomOrganizationRole names cli s ctx roleName orgID assignPerms =
        ({ s with
            remote := remote2
            zedToken := resp.deletedAt
            calls := s.calls ++
              [Call.deleteRelationships ctx (upsertDeleteRequest names roleName orgID) [],
               Call.writeRelationships (debugSetup s ctx).1
                (writeRequest (upsertRelationships names roleName orgID assignPerms))
                (debugSetup s ctx).2] },
          some (GoError.wrapf "failed to write relationships"
            (GoError.wrapf "write relationship" err))) := by
    intro remote remote2 resp err hdel hwrite
    rw [upsert_of_delete_ok names cli s ctx roleName orgID assignPerms remote resp hdel,
      writeRelationships_of_error cli _ ctx _ remote2 err hwrite]
    simp only [Option.map_some', List.append_assoc, List.singleton_append]
    rfl
  refine ⟨?_, ?_, ?_, ?_⟩
  · rcases hdel : cli.deleteRelationships s.remote ctx
      (upsertDeleteRequest names roleName orgID) [] with ⟨remote, res⟩
    cases res with
    | error err =>
      rw [upsert_of_delete_error names cli s ctx roleName orgID assignPerms remote err hdel]
      exact ⟨[], rfl, by simp⟩
    | ok resp =>
      rw [upsert_of_delete_ok names cli s ctx roleName orgID assignPerms remote resp hdel]
      refine ⟨[Call.writeRelationships (debugSetup s ctx).1
        (writeRequest (upsertRelationships names roleName orgID assignPerms))
        (debugSetup s ctx).2], ?_, ?_⟩
      · simp only [writeRelationships_calls, List.append_assoc, List.singleton_append]
        rfl
      · intro c hc
        exact ⟨_, _, _, List.mem_singleton.mp hc⟩
  · intro remote err hdel
    rw [upsert_of_delete_error names cli s ctx roleName orgID assignPerms remote err hdel]
    exact ⟨rfl, rfl, rfl⟩
  · intro remote remote2 resp err hdel hwrite
    rw [hfailwrite remote remote2 resp err hdel hwrite]
    exact ⟨rfl, rfl, rfl, rfl⟩
  · intro t e
    rw [upsert_of_delete_ok names (tupleStoreClient (some e)) t ctx roleName orgID assignPerms
      _ _ rfl, writeRelationships_of_error (tupleStoreClient (some e)) _ ctx _ _ e rfl]
    refine ⟨rfl, ?_⟩
    intro x hx
    have := (List.mem_filter.mp hx).2
    simpa [upsertDeleteRequest] using this

theorem upsert_failure_ordering_witness :
    (UpsertCustomOrganizationRole demoNames (failingDeleteClient (.leaf "unavailable"))
        { demoClient with zedToken := some (revisionToken 7) } demoUserCtx "admin" "o1"
        (fun _ _ => [demoNames.permission "admin" "o1" "workspace_viewer"])).2 =
      some (GoError.wrapf "failed to delete existing relationships" (.leaf "unavailable")) ∧
    (UpsertCustomOrganizationRole demoNames (failingDeleteClient (.leaf "unavailable"))
        { demoClient with zedToken := some (revisionToken 7) } demoUserCtx "admin" "o1"
        (fun _ _ => [demoNames.permission "admin" "o1" "workspace_viewer"])).1.calls =
      [Call.deleteRelationships demoUserCtx (upsertDeleteRequest demoNames "admin" "o1") []] ∧
    (UpsertCustomOrganizationRole demoNames (failingDeleteClient (.leaf "unavailable"))
        { demoClient with zedToken := some (revisionToken 7) } demoUserCtx "admin" "o1"
        (fun _ _ => [demoNames.permission "admin" "o1" "workspace_viewer"])).1.zedToken =
      some (revisionToken 7) :=
  (upsert_failure_ordering demoNames (failingDeleteClient (.leaf "unavailable"))
    { demoClient with zedToken := some (revisionToken 7) } demoUserCtx "admin" "o1"
    (fun _ _ => [demoNames.permission "admin" "o1" "workspace_viewer"])).2.1
    demoStore (.leaf "unavailable") rfl

end Roles

/-! ## The relationship queries -/

section Queries

variable {σ : Type}

/-- C12: when the opening ReadRelationships call fails with an error, OrganizationRoleAssignedActors
and OrganizationRolePermissions return that very error, with no operation prefix, whereas the
receive error of the same functions and the error of a failed write are returned wrapped. -/
theorem listing_open_error_returned_unwrapped :
    (OrganizationRoleAssignedActors demoNames
      (scriptedReadClient (.error (.leaf "unavailable"))) demoClient demoUserCtx "admin").2 =
      (none, some (GoError.leaf "unavailable")) ∧
    (OrganizationRolePermissions demoNames
      (scriptedReadClient (.error (.leaf "unavailable"))) demoClient demoUserCtx
      "admin" "o1").2 = (none, some (GoError.leaf "unavailable")) ∧
    (OrganizationRoleAssignedActors demoNames
      (scriptedReadClient (.ok [.error (.leaf "unavailable")])) demoClient demoUserCtx
      "admin").2 =
      (none, some (GoError.wrapf "failed to find assigned" (.leaf "unavailable"))) ∧
    (OrganizationRolePermissions demoNames
      (scriptedReadClient (.ok [.error (.leaf "unavailable")])) demoClient demoUserCtx
      "admin" "o1").2 =
      (none, some (GoError.wrapf "failed to read relationship" (.leaf "unavailable"))) ∧
    (WriteRelationships (tupleStoreClient (some (.leaf "unavailable"))) demoClient demoUserCtx
      [demoTuple]).2.2 = some (GoError.wrapf "write relationship" (.leaf "unavailable")) := by
  refine ⟨by decide, by decide, by decide, by decide, by decide⟩

/-- C13: in a context for which debug mode is active, the ReadRelationships call of both listing
functions is issued on the background context, which carries no debug-information header (the
trailer option is passed), and the DeleteRelationships call of the upsert carries neither the
header nor the trailer option; the CheckPermission call and the WriteRelationships call under
the same context carry both. -/
theorem debug_header_missing_on_reads_and_delete :
    demoClient.debugging demoDebugCtx = true ∧
    (OrganizationRoleAssignedActors demoNames (tupleStoreClient none) demoClient demoDebugCtx
      "admin").1.calls =
      [Call.readRelationships Context.background
        (assignedActorsRequest demoNames demoClient "admin") [CallOption.trailer]] ∧
    (Call.readRelationships Context.background
      (assignedActorsRequest demoNames demoClient "admin")
      [CallOption.trailer]).hasDebugHeader = false ∧
    (OrganizationRolePermissions demoNames (tupleStoreClient none) demoClient demoDebugCtx
      "admin" "o1").1.calls =
      [Call.readRelationships Context.background
        (rolePermissionsRequest demoNames demoClient "admin" "o1") [CallOption.trailer]] ∧
    (Call.readRelationships Context.background
      (rolePermissionsRequest demoNames demoClient "admin" "o1")
      [CallOption.trailer]).hasDebugHeader = false ∧
    (UpsertCustomOrganizationRole demoNames (tupleStoreClient none) demoClient demoDebugCtx
      "admin" "o1" (fun _ _ => [])).1.calls.head? =
      some (Call.deleteRelationships demoDebugCtx (upsertDeleteRequest demoNames "admin" "o1")
        []) ∧
    (Call.deleteRelationships demoDebugCtx (upsertDeleteRequest demoNames "admin" "o1")
      []).hasDebugHeader = false ∧
    (Call.deleteRelationships demoDebugCtx (upsertDeleteRequest demoNames "admin" "o1")
      []).hasTrailerOption = false ∧
    (∀ c ∈ (Check (tupleStoreClient none) demoClient demoDebugCtx "view"
        demoResource).1.calls, c.hasDebugHeader = true ∧ c.hasTrailerOption = true) ∧
    (∀ c ∈ (WriteRelationships (tupleStoreClient none) demoClient demoDebugCtx
        [demoTuple]).1.calls, c.hasDebugHeader = true ∧ c.hasTrailerOption = true) := by
  refine ⟨by decide, by decide, by decide, by decide, by decide, by decide, by decide,
    by decide, by decide, by decide⟩

end Queries

/-! ## Compensating actions -/

section Compensation

variable {σ : Type}

/-- C14: outside a transaction scope, for every tuple list T, host step and argument: when the
write of T fails, the result is the zero value with an error wrapping the write error, and the
host state and the client are those left by the failed write, whatever the host step is; when
the write succeeds and the host step returns an error, the delete closure of the write runs
once on the client left by the step, appending exactly one DELETE request of the tuples of T,
and the result and error of the step are returned; when the step succeeds its outcome is
returned as it is. WithRelationsExec does the same and returns the error alone. -/
theorem withRelations_compensates {H A R : Type} [Inhabited R]
    (cli : PermissionsServiceClient σ) (h : H) (s : SpiceDB σ) (ctx : Context)
    (T : List Relationship)
    (doStep : Context → A → H × SpiceDB σ → (H × SpiceDB σ) × R × Option GoError)
    (execStep : Context → A → H × SpiceDB σ → (H × SpiceDB σ) × Option GoError) (arg : A)
    (hscope : s.reverts = none) :
    (∀ (remote : σ) (err : GoError),
      cli.writeRelationships s.remote (debugSetup s ctx).1 (writeRequest T)
        (debugSetup s ctx).2 = (remote, .error err) →
      WithRelations cli h s ctx T doStep arg =
        ((h, (WriteRelationships cli s ctx T).1), default,
          some (GoError.wrapf "write relationships"
            (GoError.wrapf "write relationship" err))) ∧
      WithRelationsExec cli h s ctx T execStep arg =
        ((h, (WriteRelationships cli s ctx T).1),
          some (GoError.wrapf "write relationships"
            (GoError.wrapf "write relationship" err))) ∧
      (WriteRelationships cli s ctx T).1.calls =
        s.calls ++ [Call.writeRelationships (debugSetup s ctx).1 (writeRequest T)
          (debugSetup s ctx).2] ∧
      (GoError.wrapf "write relationships" (GoError.wrapf "write relationship" err)).is err =
        true) ∧
    (∀ (remote : σ) (resp : WriteRelationshipsResponse),
      cli.writeRelationships s.remote (debugSetup s ctx).1 (writeRequest T)
        (debugSetup s ctx).2 = (remote, .ok resp) →
      (∀ (h2 : H) (s2 : SpiceDB σ) (r : R) (err : GoError),
        doStep ctx arg (h, (WriteRelationships cli s ctx T).1) = ((h2, s2), r, some err) →
        WithRelations cli h s ctx T doStep arg =
          ((h2, (Revert.deleteWritten (debugSetup s ctx).1 (debugSetup s ctx).2
            (touchUpdates T)).run cli s2), r, some err) ∧
        (WithRelations cli h s ctx T doStep arg).1.2.calls =
          s2.calls ++ [Call.writeRelationships (debugSetup s ctx).1
            { updates := T.map (fun x => { operation := .delete, relationship := x }),
              optionalPreconditions := [] } (debugSetup s ctx).2]) ∧
      (∀ (w2 : H × SpiceDB σ) (r : R),
        doStep ctx arg (h, (WriteRelationships cli s ctx T).1) = (w2, r, none) →
        WithRelations cli h s ctx T doStep arg = (w2, r, none)) ∧
      (∀ (h2 : H) (s2 : SpiceDB σ) (err : GoError),
        execStep ctx arg (h, (WriteRelationships cli s ctx T).1) = ((h2, s2), some err) →
        WithRelationsExec cli h s ctx T execStep arg =
          ((h2, (Revert.deleteWritten (debugSetup s ctx).1 (debugSetup s ctx).2
            (touchUpdates T)).run cli s2), some err) ∧
        (WithRelationsExec cli h s ctx T execStep arg).1.2.calls =
          s2.calls ++ [Call.writeRelationships (debugSetup s ctx).1
            { updates := T.map (fun x => { operation := .delete, relationship := x }),
              optionalPreconditions := [] } (debugSetup s ctx).2]) ∧
      (∀ (w2 : H × SpiceDB σ),
        execStep ctx arg (h, (WriteRelationships cli s ctx T).1) = (w2, none) →
        WithRelationsExec cli h s ctx T execStep arg = (w2, none))) := by
  constructor
  · intro remote err hfail
    refine ⟨withRelations_of_write_error cli h s ctx T doStep arg remote err hfail, ?_,
      writeRelationships_calls cli s ctx T, ?_⟩
    · rw [withRelationsExec_eq, withRelations_of_write_error cli h s ctx T _ arg remote err hfail]
    · simp [GoError.is, GoError.chain, GoError.self_mem_chain]
  · intro remote resp hok
    refine ⟨?_, ?_, ?_, ?_⟩
    · intro h2 s2 r err hdo
      have hres : WithRelations cli h s ctx T doStep arg =
          ((h2, (Revert.deleteWritten (debugSetup s ctx).1 (debugSetup s ctx).2
            (touchUpdates T)).run cli s2), r, some err) := by
        rw [withRelations_of_write_ok cli h s ctx T doStep arg remote resp hscope hok, hdo]
      refine ⟨hres, ?_⟩
      rw [hres]
      exact revert_run_calls cli s2 _ _ T
    · intro w2 r hdo
      rw [withRelations_of_write_ok cli h s ctx T doStep arg remote resp hscope hok, hdo]
    · intro h2 s2 err hdo
      have hres : WithRelationsExec cli h s ctx T execStep arg =
          ((h2, (Revert.deleteWritten (debugSetup s ctx).1 (debugSetup s ctx).2
            (touchUpdates T)).run cli s2), some err) := by
        rw [withRelationsExec_eq,
          withRelations_of_write_ok cli h s ctx T _ arg remote resp hscope hok]
        simp only [hdo]
      refine ⟨hres, ?_⟩
      rw [hres]
      exact revert_run_calls cli s2 _ _ T
    · intro w2 hdo
      rw [withRelationsExec_eq,
        withRelations_of_write_ok cli h s ctx T _ arg remote resp hscope hok]
      simp only [hdo]

theorem withRelations_compensates_witness :
    WithRelations (tupleStoreClient none) (0 : Nat) demoClient demoUserCtx [demoTuple]
        (fun (_ : Context) (_ : Unit) (w : Nat × SpiceDB TupleStore) =>
          ((w.1 + 1, w.2), (5 : Nat), some (GoError.leaf "host failed"))) () =
      ((1, (Revert.deleteWritten demoUserCtx [] (touchUpdates [demoTuple])).run
          (tupleStoreClient none)
          (WriteRelationships (tupleStoreClient none) demoClient demoUserCtx [demoTuple]).1),
        5, some (GoError.leaf "host failed")) ∧
    (WithRelations (tupleStoreClient none) (0 : Nat) demoClient demoUserCtx [demoTuple]
        (fun (_ : Context) (_ : Unit) (w : Nat × SpiceDB TupleStore) =>
          ((w.1 + 1, w.2), (5 : Nat), some (GoError.leaf "host failed"))) ()).1.2.calls =
      (WriteRelationships (tupleStoreClient none) demoClient demoUserCtx [demoTuple]).1.calls ++
        [Call.writeRelationships demoUserCtx
          { updates := [{ operation := .delete, relationship := demoTuple }],
            optionalPreconditions := [] } []] :=
  ((withRelations_compensates (tupleStoreClient none) (0 : Nat) demoClient demoUserCtx
      [demoTuple]
      (fun (_ : Context) (_ : Unit) (w : Nat × SpiceDB TupleStore) =>
        ((w.1 + 1, w.2), (5 : Nat), some (GoError.leaf "host failed")))
      (fun (_ : Context) (_ : Unit) (w : Nat × SpiceDB TupleStore) =>
        ((w.1 + 1, w.2), some (GoError.leaf "host failed"))) () rfl).2
    { tuples := applyUpdates demoStore.tuples (writeRequest [demoTuple]).updates, revision := 1 }
    { writtenAt := some (revisionToken 1) } rfl).1 1
    (WriteRelationships (tupleStoreClient none) demoClient demoUserCtx [demoTuple]).1 5
    (.leaf "host failed") rfl

/-- C15: over the tuple store, for every prior state and tuple list T, running the delete
closure of a write of T right after the write (the closure returned outside a transaction
scope, the closure registered inside one) leaves the prior tuples that are not in T: a tuple is
in the store afterwards exactly when it was there before and is not in T. Hence the prior state
is restored exactly when no tuple of T was in it, and a prior tuple that T re-touched is gone. -/
theorem write_then_revert_leaves_prior_minus_written (t : SpiceDB TupleStore) (ctx : Context)
    (T : List Relationship) :
    (t.reverts = none →
      ∃ revert, (WriteRelationships (tupleStoreClient none) t ctx T).2 = (some revert, none) ∧
        (revert.run (tupleStoreClient none)
          (WriteRelationships (tupleStoreClient none) t ctx T).1).remote.tuples =
            t.remote.tuples.filter (fun x => decide (x ∉ T)) ∧
        (∀ x, x ∈ (revert.run (tupleStoreClient none)
            (WriteRelationships (tupleStoreClient none) t ctx T).1).remote.tuples ↔
          x ∈ t.remote.tuples ∧ x ∉ T) ∧
        ((revert.run (tupleStoreClient none)
            (WriteRelationships (tupleStoreClient none) t ctx T).1).remote.tuples =
            t.remote.tuples ↔ ∀ x ∈ T, x ∉ t.remote.tuples) ∧
        ((∀ x, x ∈ (revert.run (tupleStoreClient none)
              (WriteRelationships (tupleStoreClient none) t ctx T).1).remote.tuples ↔
            x ∈ t.remote.tuples) ↔ ∀ x ∈ T, x ∉ t.remote.tuples) ∧
        (∀ x, x ∈ t.remote.tuples → x ∈ T →
          x ∈ (WriteRelationships (tupleStoreClient none) t ctx T).1.remote.tuples ∧
          x ∉ (revert.run (tupleStoreClient none)
            (WriteRelationships (tupleStoreClient none) t ctx T).1).remote.tuples)) ∧
    (∀ rs, t.reverts = some rs →
      ∃ revert, (WriteRelationships (tupleStoreClient none) t ctx T).1.reverts =
          some (rs ++ [revert]) ∧
        (revert.run (tupleStoreClient none)
          (WriteRelationships (tupleStoreClient none) t ctx T).1).remote.tuples =
            t.remote.tuples.filter (fun x => decide (x ∉ T))) := by
  have hrun : ∀ (u : SpiceDB TupleStore) (c : Context) (o : List CallOption),
      ((Revert.deleteWritten c o (touchUpdates T)).run (tupleStoreClient none) u).remote.tuples =
        applyUpdates u.remote.tuples (markDelete (touchUpdates T)) := by
    intro u c o
    simp only [Revert.run, tupleStoreClient, revertRequest]
  constructor
  · intro hscope
    refine ⟨Revert.deleteWritten (debugSetup t ctx).1 (debugSetup t ctx).2 (touchUpdates T),
      ?_, ?_⟩
    · rw [store_write_unscoped t ctx T hscope]
    · have hfinal : ((Revert.deleteWritten (debugSetup t ctx).1 (debugSetup t ctx).2
          (touchUpdates T)).run (tupleStoreClient none)
          (WriteRelationships (tupleStoreClient none) t ctx T).1).remote.tuples =
            t.remote.tuples.filter (fun x => decide (x ∉ T)) := by
        rw [hrun, (store_write t ctx T).2, store_write_then_revert]
      have hmem : ∀ x, x ∈ t.remote.tuples.filter (fun x => decide (x ∉ T)) ↔
          x ∈ t.remote.tuples ∧ x ∉ T := by
        intro x
        simp [List.mem_filter]
      rw [hfinal]
      refine ⟨rfl, hmem, ?_, ?_, ?_⟩
      · rw [List.filter_eq_self]
        constructor
        · intro h x hx hmemS
          have := h x hmemS
          simp at this
          exact this hx
        · intro h x hx
          simp only [decide_eq_true_eq]
          exact fun hxT => h x hxT hx
      · constructor
        · intro h x hx hmemS
          exact ((hmem x).mp ((h x).mpr hmemS)).2 hx
        · intro h x
          rw [hmem]
          exact ⟨fun hx => hx.1, fun hx => ⟨hx, fun hxT => h x hxT hx⟩⟩
      · intro x hxS hxT
        refine ⟨?_, fun hx => ((hmem x).mp hx).2 hxT⟩
        rw [(store_write t ctx T).2, mem_applyUpdates_touch]
        exact Or.inl hxS
  · intro rs hscope
    refine ⟨Revert.deleteWritten (debugSetup t ctx).1 (debugSetup t ctx).2 (touchUpdates T),
      ?_, ?_⟩
    · rw [store_write_scoped t ctx T rs hscope]
    · rw [hrun, (store_write t ctx T).2, store_write_then_revert]

theorem write_then_revert_leaves_prior_minus_written_witness :
    ∃ revert, (WriteRelationships (tupleStoreClient none)
        { demoClient with remote := { tuples := [demoMember, demoTuple], revision := 3 } }
        demoUserCtx [demoTuple]).2 = (some revert, none) ∧
      (revert.run (tupleStoreClient none)
        (WriteRelationships (tupleStoreClient none)
          { demoClient with remote := { tuples := [demoMember, demoTuple], revision := 3 } }
          demoUserCtx [demoTuple]).1).remote.tuples =
        [demoMember, demoTuple].filter (fun x => decide (x ∉ [demoTuple])) :=
  ((write_then_revert_leaves_prior_minus_written
      { demoClient with remote := { tuples := [demoMember, demoTuple], revision := 3 } }
      demoUserCtx [demoTuple]).1 rfl).imp (fun _ hr => ⟨hr.1, hr.2.1⟩)

end Compensation

end Spice
